import Mathlib

/-!
# Verification of the tabssh terminal-emulation core

Shallow embedding of `src/terminal/{cell.rs, buffer.rs, parser.rs, mod.rs}`.
Rust `usize`/`u16` quantities are modelled as `Nat`; every subtraction that the
source performs with `saturating_sub` is Nat subtraction (which saturates), and
every plain `usize` subtraction in the source is noted at its use site.
`Vec<Cell>` becomes `List Cell`, `Vec<Vec<Cell>>` becomes `List (List Cell)`;
`Vec::insert`/`Vec::remove`/`Vec::push`/`Vec::pop` become
`List.insertIdx`/`List.eraseIdx`/append/`List.dropLast` (the source only calls
them at indices that are in range under the grid invariants, where the Rust and
Lean semantics agree).
-/

set_option maxHeartbeats 1600000
set_option maxRecDepth 40000

namespace TabSsh

/-- `Color` from `src/terminal/mod.rs`: an RGB triple of `u8`. All constants in
the source are below 256, so `Nat` components are used. -/
structure Color where
  r : Nat
  g : Nat
  b : Nat
deriving DecidableEq, Repr

namespace Color

/-- `Color::rgb` -/
def rgb (r g b : Nat) : Color := ⟨r, g, b⟩

/-- `Color::BLACK` -/
def BLACK : Color := rgb 0 0 0
/-- `Color::WHITE` -/
def WHITE : Color := rgb 229 229 229
/-- `Color::RED` -/
def RED : Color := rgb 205 49 49

end Color

/-- `CellAttributes` from `src/terminal/cell.rs`. -/
structure CellAttributes where
  bold : Bool := false
  italic : Bool := false
  underline : Bool := false
  strikethrough : Bool := false
  dim : Bool := false
  inverse : Bool := false
  hidden : Bool := false
  blink : Bool := false
deriving DecidableEq, Repr

/-- `CellAttributes::default()`: all flags false. -/
def CellAttributes.default : CellAttributes := {}

/-- `Cell` from `src/terminal/cell.rs`. -/
structure Cell where
  character : Char
  fg : Color
  bg : Color
  attrs : CellAttributes
deriving DecidableEq, Repr

namespace Cell

/-- `Cell::default()`: space with default pen. -/
def default : Cell :=
  { character := ' ', fg := Color.WHITE, bg := Color.BLACK,
    attrs := CellAttributes.default }

/-- `Cell::clear`: resets character to space and attributes to default.
Note that it does NOT touch `fg`/`bg`. -/
def clearCell (c : Cell) : Cell :=
  { c with character := ' ', attrs := CellAttributes.default }

end Cell

/-- `TerminalSize` from `src/terminal/mod.rs` (`u16` fields as `Nat`). -/
structure TerminalSize where
  cols : Nat
  rows : Nat
deriving DecidableEq, Repr

/-- A screen row. -/
abbrev Row := List Cell

/-- `TerminalBuffer` from `src/terminal/buffer.rs`. -/
structure TerminalBuffer where
  screen : List Row
  scrollback : List Row
  max_scrollback : Nat
  size : TerminalSize
  cursor_x : Nat
  cursor_y : Nat
  saved_cursor_x : Nat
  saved_cursor_y : Nat
  current_attrs : CellAttributes
  current_fg : Color
  current_bg : Color
  scroll_top : Nat
  scroll_bottom : Nat
  alternate_screen : Option (List Row)
  alternate_cursor : Option (Nat × Nat)
  origin_mode : Bool
  auto_wrap : Bool
  insert_mode : Bool
deriving DecidableEq, Repr

namespace TerminalBuffer

/-- `TerminalBuffer::create_empty_screen`. -/
def create_empty_screen (cols rows : Nat) : List Row :=
  List.replicate rows (List.replicate cols Cell.default)

/-- `TerminalBuffer::new`. The source precomputes
`scroll_bottom = rows as usize - 1` (plain subtraction; callers pass
`rows ≥ 1`). -/
def new (cols rows max_scrollback : Nat) : TerminalBuffer where
  screen := create_empty_screen cols rows
  scrollback := []
  max_scrollback := max_scrollback
  size := ⟨cols, rows⟩
  cursor_x := 0
  cursor_y := 0
  saved_cursor_x := 0
  saved_cursor_y := 0
  current_attrs := CellAttributes.default
  current_fg := Color.WHITE
  current_bg := Color.BLACK
  scroll_top := 0
  scroll_bottom := rows - 1
  alternate_screen := none
  alternate_cursor := none
  origin_mode := false
  auto_wrap := true
  insert_mode := false

/-- `TerminalBuffer::cursor_position`. -/
def cursor_position (b : TerminalBuffer) : Nat × Nat := (b.cursor_x, b.cursor_y)

/-- `TerminalBuffer::get_cell`. -/
def get_cell (b : TerminalBuffer) (x y : Nat) : Option Cell :=
  (b.screen.get? y).bind fun row => row.get? x

/-- `TerminalBuffer::get_row`. -/
def get_row (b : TerminalBuffer) (y : Nat) : Option Row := b.screen.get? y

/-- `TerminalBuffer::scrollback_len`. -/
def scrollback_len (b : TerminalBuffer) : Nat := b.scrollback.length

/-- `TerminalBuffer::get_scrollback_row`. -/
def get_scrollback_row (b : TerminalBuffer) (index : Nat) : Option Row :=
  b.scrollback.get? index

/-- The nested `get_mut` pattern used by `write_char`:
update cell `(x, y)` if both row `y` and column `x` exist, else no change. -/
def setCellAt (screen : List Row) (y x : Nat) (f : Cell → Cell) : List Row :=
  match screen.get? y with
  | none => screen
  | some row =>
    match row.get? x with
    | none => screen
    | some c => screen.set y (row.set x (f c))

/-- The `while self.scrollback.len() > self.max_scrollback
{ self.scrollback.remove(0); }` loop in `scroll_up`
(`remove(0)` drops the head, i.e. the oldest row). -/
def evictOldest (maxScrollback : Nat) : List Row → List Row
  | [] => []
  | x :: xs =>
    if (x :: xs).length > maxScrollback then evictOldest maxScrollback xs
    else x :: xs

/-- The `for y in self.scroll_top..self.scroll_bottom { if y + 1 < len
{ screen[y] = screen[y+1].clone() } }` loop of `scroll_up`, iterating
`y = t, t+1, …` for `fuel` steps. -/
def copyUpAux (s : List Row) (t : Nat) : Nat → List Row
  | 0 => s
  | fuel + 1 =>
    let s' :=
      if t + 1 < s.length then
        match s.get? (t + 1) with
        | some r => s.set t r
        | none => s
      else s
    copyUpAux s' (t + 1) fuel

/-- The `for y in (self.scroll_top + 1..=self.scroll_bottom).rev() { if y > 0
&& y < len { screen[y] = screen[y-1].clone() } }` loop of `scroll_down`,
iterating `y = t + fuel, …, t + 1` downwards. -/
def copyDownAux (s : List Row) (t : Nat) : Nat → List Row
  | 0 => s
  | fuel + 1 =>
    let y := t + fuel + 1
    let s' :=
      if y > 0 ∧ y < s.length then
        match s.get? (y - 1) with
        | some r => s.set y r
        | none => s
      else s
    copyDownAux s' t fuel

/-- One iteration of the `for _ in 0..n` loop of `TerminalBuffer::scroll_up`. -/
def scroll_up_once (b : TerminalBuffer) : TerminalBuffer :=
  let b :=
    if b.scroll_top = 0 then
      match b.screen.get? 0 with
      | some row =>
        { b with scrollback := evictOldest b.max_scrollback (b.scrollback ++ [row]) }
      | none => b
    else b
  let scr := copyUpAux b.screen b.scroll_top (b.scroll_bottom - b.scroll_top)
  let scr :=
    if b.scroll_bottom < scr.length then
      scr.set b.scroll_bottom (List.replicate b.size.cols Cell.default)
    else scr
  { b with screen := scr }

/-- `TerminalBuffer::scroll_up`. -/
def scroll_up (b : TerminalBuffer) : Nat → TerminalBuffer
  | 0 => b
  | n + 1 => scroll_up (scroll_up_once b) n

/-- One iteration of the `for _ in 0..n` loop of `TerminalBuffer::scroll_down`. -/
def scroll_down_once (b : TerminalBuffer) : TerminalBuffer :=
  let scr := copyDownAux b.screen b.scroll_top (b.scroll_bottom - b.scroll_top)
  let scr :=
    if b.scroll_top < scr.length then
      scr.set b.scroll_top (List.replicate b.size.cols Cell.default)
    else scr
  { b with screen := scr }

/-- `TerminalBuffer::scroll_down`. -/
def scroll_down (b : TerminalBuffer) : Nat → TerminalBuffer
  | 0 => b
  | n + 1 => scroll_down (scroll_down_once b) n

/-- `TerminalBuffer::newline` (private `fn newline`). -/
def newline (b : TerminalBuffer) : TerminalBuffer :=
  if b.cursor_y ≥ b.scroll_bottom then b.scroll_up 1
  else { b with cursor_y := b.cursor_y + 1 }

/-- `TerminalBuffer::backspace` (private). -/
def backspace (b : TerminalBuffer) : TerminalBuffer :=
  if b.cursor_x > 0 then { b with cursor_x := b.cursor_x - 1 } else b

/-- `TerminalBuffer::tab` (private). `size.cols as usize - 1` is plain
subtraction in the source (well-defined for `cols ≥ 1`). -/
def tab (b : TerminalBuffer) : TerminalBuffer :=
  { b with cursor_x := min ((b.cursor_x / 8 + 1) * 8) (b.size.cols - 1) }

/-- The `for _ in 0..count { if cursor_x < len { row.insert(cursor_x, default);
row.pop(); } }` loop of `insert_blank`, acting on one row. -/
def insertBlankRow (cx : Nat) : Nat → Row → Row
  | 0, row => row
  | count + 1, row =>
    let row := if cx < row.length then (row.insertIdx cx Cell.default).dropLast else row
    insertBlankRow cx count row

/-- `TerminalBuffer::insert_blank`. -/
def insert_blank (b : TerminalBuffer) (count : Nat) : TerminalBuffer :=
  match b.screen.get? b.cursor_y with
  | none => b
  | some row => { b with screen := b.screen.set b.cursor_y (insertBlankRow b.cursor_x count row) }

/-- The per-row loop of `delete_chars`: `if cursor_x < len { row.remove(cursor_x);
row.push(default); }`, `count` times. -/
def deleteCharsRow (cx : Nat) : Nat → Row → Row
  | 0, row => row
  | count + 1, row =>
    let row := if cx < row.length then row.eraseIdx cx ++ [Cell.default] else row
    deleteCharsRow cx count row

/-- `TerminalBuffer::delete_chars`. -/
def delete_chars (b : TerminalBuffer) (count : Nat) : TerminalBuffer :=
  match b.screen.get? b.cursor_y with
  | none => b
  | some row => { b with screen := b.screen.set b.cursor_y (deleteCharsRow b.cursor_x count row) }

/-- `TerminalBuffer::write_char`. Control characters are intercepted first;
then the deferred-wrap check, insert mode, the cell write, and
`cursor_x += 1`. `size.cols as usize - 1` in the no-auto-wrap branch is plain
subtraction (callers keep `cols ≥ 1`). -/
def write_char (b : TerminalBuffer) (c : Char) : TerminalBuffer :=
  if c = '\n' then b.newline
  else if c = '\r' then { b with cursor_x := 0 }
  else if c = '\x08' then b.backspace
  else if c = '\t' then b.tab
  else if c = '\x07' then b
  else
    let b :=
      if b.cursor_x ≥ b.size.cols then
        if b.auto_wrap then ({ b with cursor_x := 0 } : TerminalBuffer).newline
        else { b with cursor_x := b.size.cols - 1 }
      else b
    let b := if b.insert_mode then b.insert_blank 1 else b
    let b :=
      { b with
        screen := setCellAt b.screen b.cursor_y b.cursor_x fun cell =>
          { cell with character := c, fg := b.current_fg, bg := b.current_bg,
                      attrs := b.current_attrs } }
    { b with cursor_x := b.cursor_x + 1 }

/-- `TerminalBuffer::write_str`. -/
def write_str (b : TerminalBuffer) (s : List Char) : TerminalBuffer :=
  s.foldl write_char b

/-- `TerminalBuffer::set_cursor`. `max_x`/`max_y` use plain `usize`
subtraction in the source (callers keep `cols, rows ≥ 1`). -/
def set_cursor (b : TerminalBuffer) (x y : Nat) : TerminalBuffer :=
  let max_x := b.size.cols - 1
  let max_y := b.size.rows - 1
  { b with
    cursor_x := min x max_x,
    cursor_y :=
      if b.origin_mode then min (y + b.scroll_top) b.scroll_bottom
      else min y max_y }

/-- `TerminalBuffer::move_cursor`: `(cursor as isize + d).max(0) as usize`
is exactly `Int.toNat`. -/
def move_cursor (b : TerminalBuffer) (dx dy : Int) : TerminalBuffer :=
  let new_x := ((b.cursor_x : Int) + dx).toNat
  let new_y := ((b.cursor_y : Int) + dy).toNat
  b.set_cursor new_x new_y

/-- `TerminalBuffer::clear`. -/
def clear (b : TerminalBuffer) : TerminalBuffer :=
  { b with screen := create_empty_screen b.size.cols b.size.rows }

/-- The `for x in start.. { if x < len { row[x].clear() } }` loops of the
partial line clears and `erase_chars`, iterating `x = start, start+1, …`
for `fuel` steps. -/
def clearCellsAux (row : Row) (x : Nat) : Nat → Row
  | 0 => row
  | fuel + 1 =>
    let row' :=
      match row.get? x with
      | some c => row.set x c.clearCell
      | none => row
    clearCellsAux row' (x + 1) fuel

/-- The `for y in start..stop { clear whole row y }` loops of
`clear_to_end`/`clear_to_start` (`for cell in row.iter_mut() { cell.clear() }`
becomes a map over the row). -/
def clearRowsAux (s : List Row) (y : Nat) : Nat → List Row
  | 0 => s
  | fuel + 1 =>
    let s' :=
      match s.get? y with
      | some row => s.set y (row.map Cell.clearCell)
      | none => s
    clearRowsAux s' (y + 1) fuel

/-- `TerminalBuffer::clear_line`. -/
def clear_line (b : TerminalBuffer) : TerminalBuffer :=
  match b.screen.get? b.cursor_y with
  | none => b
  | some row => { b with screen := b.screen.set b.cursor_y (row.map Cell.clearCell) }

/-- `TerminalBuffer::clear_line_to_end`: `for x in cursor_x..row.len()`. -/
def clear_line_to_end (b : TerminalBuffer) : TerminalBuffer :=
  match b.screen.get? b.cursor_y with
  | none => b
  | some row =>
    { b with screen :=
        b.screen.set b.cursor_y (clearCellsAux row b.cursor_x (row.length - b.cursor_x)) }

/-- `TerminalBuffer::clear_line_to_start`:
`for x in 0..=cursor_x.min(row.len() - 1)` (the `row.len() - 1` is plain
subtraction; rows are nonempty under the grid invariant). -/
def clear_line_to_start (b : TerminalBuffer) : TerminalBuffer :=
  match b.screen.get? b.cursor_y with
  | none => b
  | some row =>
    { b with screen :=
        b.screen.set b.cursor_y (clearCellsAux row 0 (min b.cursor_x (row.length - 1) + 1)) }

/-- `TerminalBuffer::clear_to_end`: clear to end of line, then whole rows
`cursor_y + 1 .. size.rows`. -/
def clear_to_end (b : TerminalBuffer) : TerminalBuffer :=
  let b := b.clear_line_to_end
  { b with screen := clearRowsAux b.screen (b.cursor_y + 1) (b.size.rows - (b.cursor_y + 1)) }

/-- `TerminalBuffer::clear_to_start`: whole rows `0 .. cursor_y`, then clear
from start of the cursor line. -/
def clear_to_start (b : TerminalBuffer) : TerminalBuffer :=
  let b := { b with screen := clearRowsAux b.screen 0 b.cursor_y }
  b.clear_line_to_start

/-- The blank row inserted by `insert_lines`/`delete_lines`/`scroll_up`. -/
def blankRow (cols : Nat) : Row := List.replicate cols Cell.default

/-- `TerminalBuffer::insert_lines`: `count` iterations of
`if cursor_y <= scroll_bottom { screen.remove(scroll_bottom);
screen.insert(cursor_y, blank) }`. -/
def insert_lines (b : TerminalBuffer) : Nat → TerminalBuffer
  | 0 => b
  | count + 1 =>
    let b :=
      if b.cursor_y ≤ b.scroll_bottom then
        { b with screen :=
            (b.screen.eraseIdx b.scroll_bottom).insertIdx b.cursor_y (blankRow b.size.cols) }
      else b
    insert_lines b count

/-- `TerminalBuffer::delete_lines`: `count` iterations of
`if cursor_y <= scroll_bottom { screen.remove(cursor_y);
screen.insert(scroll_bottom, blank) }`. -/
def delete_lines (b : TerminalBuffer) : Nat → TerminalBuffer
  | 0 => b
  | count + 1 =>
    let b :=
      if b.cursor_y ≤ b.scroll_bottom then
        { b with screen :=
            (b.screen.eraseIdx b.cursor_y).insertIdx b.scroll_bottom (blankRow b.size.cols) }
      else b
    delete_lines b count

/-- `TerminalBuffer::erase_chars`: `for i in 0..count { if cursor_x + i < len
{ row[cursor_x + i].clear() } }`. -/
def erase_chars (b : TerminalBuffer) (count : Nat) : TerminalBuffer :=
  match b.screen.get? b.cursor_y with
  | none => b
  | some row =>
    { b with screen := b.screen.set b.cursor_y (clearCellsAux row b.cursor_x count) }

/-- `TerminalBuffer::save_cursor`. -/
def save_cursor (b : TerminalBuffer) : TerminalBuffer :=
  { b with saved_cursor_x := b.cursor_x, saved_cursor_y := b.cursor_y }

/-- `TerminalBuffer::restore_cursor`. -/
def restore_cursor (b : TerminalBuffer) : TerminalBuffer :=
  { b with cursor_x := b.saved_cursor_x, cursor_y := b.saved_cursor_y }

/-- `TerminalBuffer::set_scroll_region` (`size.rows as usize - 1` is plain
subtraction; callers keep `rows ≥ 1`). -/
def set_scroll_region (b : TerminalBuffer) (top bottom : Nat) : TerminalBuffer :=
  let max_row := b.size.rows - 1
  let st := min top max_row
  { b with scroll_top := st, scroll_bottom := max (min bottom max_row) st }

/-- `TerminalBuffer::reset_scroll_region`. -/
def reset_scroll_region (b : TerminalBuffer) : TerminalBuffer :=
  { b with scroll_top := 0, scroll_bottom := b.size.rows - 1 }

/-- `TerminalBuffer::switch_to_alternate`. -/
def switch_to_alternate (b : TerminalBuffer) : TerminalBuffer :=
  if b.alternate_screen = none then
    let b := { b with alternate_screen := some b.screen,
                      alternate_cursor := some (b.cursor_x, b.cursor_y) }
    let b := b.clear
    { b with cursor_x := 0, cursor_y := 0 }
  else b

/-- `TerminalBuffer::switch_to_main`. -/
def switch_to_main (b : TerminalBuffer) : TerminalBuffer :=
  match b.alternate_screen with
  | none => b
  | some main_screen =>
    let b := { b with screen := main_screen, alternate_screen := none }
    match b.alternate_cursor with
    | none => b
    | some (x, y) =>
      { b with cursor_x := x, cursor_y := y, alternate_cursor := none }

/-- `TerminalBuffer::set_fg`. -/
def set_fg (b : TerminalBuffer) (color : Color) : TerminalBuffer :=
  { b with current_fg := color }

/-- `TerminalBuffer::set_bg`. -/
def set_bg (b : TerminalBuffer) (color : Color) : TerminalBuffer :=
  { b with current_bg := color }

/-- `TerminalBuffer::set_attr`. -/
def set_attr (b : TerminalBuffer) (attr : CellAttributes) : TerminalBuffer :=
  { b with current_attrs := attr }

/-- `TerminalBuffer::reset_attrs`. -/
def reset_attrs (b : TerminalBuffer) : TerminalBuffer :=
  { b with current_attrs := CellAttributes.default,
           current_fg := Color.WHITE, current_bg := Color.BLACK }

/-- The overlap copy of `resize`: an empty `new_cols × new_rows` grid with the
old top-left rectangle copied in (`for (y,row) in screen, break at new_rows;
for (x,cell) in row, break at new_cols; new[y][x] = cell`). -/
def resizeScreen (old : List Row) (new_cols new_rows : Nat) : List Row :=
  (List.range new_rows).map fun y =>
    (List.range new_cols).map fun x =>
      match old.get? y with
      | some row => (row.get? x).getD Cell.default
      | none => Cell.default

/-- `TerminalBuffer::resize`. The cursor clamps use `saturating_sub` (Nat
subtraction); `scroll_bottom = new_rows - 1` is PLAIN `usize` subtraction in
the source, which underflows (debug-build panic) when `rows = 0` — Lean's Nat
subtraction yields 0 there, so theorems about `resize` carry `1 ≤ rows`. -/
def resize (b : TerminalBuffer) (cols rows : Nat) : TerminalBuffer :=
  let new_screen := resizeScreen b.screen cols rows
  { b with
    screen := new_screen,
    size := ⟨cols, rows⟩,
    cursor_x := min b.cursor_x (cols - 1),
    cursor_y := min b.cursor_y (rows - 1),
    scroll_bottom := rows - 1,
    scroll_top := if b.scroll_top ≥ rows then 0 else b.scroll_top }

/-- `TerminalBuffer::set_auto_wrap`. -/
def set_auto_wrap (b : TerminalBuffer) (enabled : Bool) : TerminalBuffer :=
  { b with auto_wrap := enabled }

/-- `TerminalBuffer::set_insert_mode`. -/
def set_insert_mode (b : TerminalBuffer) (enabled : Bool) : TerminalBuffer :=
  { b with insert_mode := enabled }

/-- `TerminalBuffer::set_origin_mode`. -/
def set_origin_mode (b : TerminalBuffer) (enabled : Bool) : TerminalBuffer :=
  let b := { b with origin_mode := enabled }
  if enabled then b.set_cursor 0 0 else b

end TerminalBuffer

end TabSsh

namespace TabSsh

/-! ## Escape-sequence interpreter (`src/terminal/parser.rs`)

The byte-level state machine itself is the external `vte` crate (not part of
this repository); it is modelled from the spec, §4.3. All dispatch functions
(`print`, `execute`, `csi_dispatch`, `esc_dispatch`, `handle_sgr`,
`color_from_256`, `handle_mode`) are translated from
`src/terminal/parser.rs`. -/

/-- `ANSI_COLORS` table from `src/terminal/parser.rs`. -/
def ANSI_COLORS : List Color :=
  [Color.rgb 0 0 0, Color.rgb 205 49 49, Color.rgb 13 188 121,
   Color.rgb 229 229 16, Color.rgb 36 114 200, Color.rgb 188 63 188,
   Color.rgb 17 168 205, Color.rgb 229 229 229]

/-- `ANSI_BRIGHT_COLORS` table from `src/terminal/parser.rs`. -/
def ANSI_BRIGHT_COLORS : List Color :=
  [Color.rgb 102 102 102, Color.rgb 241 76 76, Color.rgb 35 209 139,
   Color.rgb 245 245 67, Color.rgb 59 142 234, Color.rgb 214 112 214,
   Color.rgb 41 184 219, Color.rgb 255 255 255]

open TerminalBuffer

/-- `TerminalPerformer::color_from_256`. The in-range table indexings
`ANSI_COLORS[idx]` are rendered with `getD` (the match arms keep the index
below 8). The `u16` arithmetic of the cube/grayscale rows stays below 256, so
Nat arithmetic is exact. -/
def color_from_256 (idx : Nat) : Color :=
  if idx ≤ 7 then (ANSI_COLORS.get? idx).getD Color.WHITE
  else if idx ≤ 15 then (ANSI_BRIGHT_COLORS.get? (idx - 8)).getD Color.WHITE
  else if idx ≤ 231 then
    let i := idx - 16
    Color.rgb (i / 36 * 51) (i / 6 % 6 * 51) (i % 6 * 51)
  else if idx ≤ 255 then
    let gray := (idx - 232) * 10 + 8
    Color.rgb gray gray gray
  else Color.WHITE

/-- One step of the `while i < params.len()` loop of
`TerminalPerformer::handle_sgr`, split into its two effects. Every arm of the
source's `match params[i]` mutates only the pen (via
`reset_attrs`/`set_attr`/`set_fg`/`set_bg`); `sgr_pen` is that pen
transformation, arm by arm. The `38`/`48` arms read the extra parameter slots
exactly when the source's `i + 2 < len && params[i+1] == 5` (resp.
`i + 4 < len && params[i+1] == 2`) guards hold. `params[..] as u8` truncation
is `% 256`. -/
def sgr_pen (a : CellAttributes) (fg bg : Color) (p : Nat) (rest : List Nat) :
    CellAttributes × Color × Color :=
  if p = 0 then (CellAttributes.default, Color.WHITE, Color.BLACK)
  else if p = 1 then ({ a with bold := true }, fg, bg)
  else if p = 2 then ({ a with dim := true }, fg, bg)
  else if p = 3 then ({ a with italic := true }, fg, bg)
  else if p = 4 then ({ a with underline := true }, fg, bg)
  else if p = 5 ∨ p = 6 then ({ a with blink := true }, fg, bg)
  else if p = 7 then ({ a with inverse := true }, fg, bg)
  else if p = 8 then ({ a with hidden := true }, fg, bg)
  else if p = 9 then ({ a with strikethrough := true }, fg, bg)
  else if p = 21 ∨ p = 22 then ({ a with bold := false, dim := false }, fg, bg)
  else if p = 23 then ({ a with italic := false }, fg, bg)
  else if p = 24 then ({ a with underline := false }, fg, bg)
  else if p = 25 then ({ a with blink := false }, fg, bg)
  else if p = 27 then ({ a with inverse := false }, fg, bg)
  else if p = 28 then ({ a with hidden := false }, fg, bg)
  else if p = 29 then ({ a with strikethrough := false }, fg, bg)
  else if 30 ≤ p ∧ p ≤ 37 then (a, (ANSI_COLORS.get? (p - 30)).getD Color.WHITE, bg)
  else if p = 38 then
    match rest with
    | 5 :: n :: _ => (a, color_from_256 n, bg)
    | 2 :: r :: g :: bl :: _ => (a, Color.rgb (r % 256) (g % 256) (bl % 256), bg)
    | _ => (a, fg, bg)
  else if p = 39 then (a, Color.WHITE, bg)
  else if 40 ≤ p ∧ p ≤ 47 then (a, fg, (ANSI_COLORS.get? (p - 40)).getD Color.WHITE)
  else if p = 48 then
    match rest with
    | 5 :: n :: _ => (a, fg, color_from_256 n)
    | 2 :: r :: g :: bl :: _ => (a, fg, Color.rgb (r % 256) (g % 256) (bl % 256))
    | _ => (a, fg, bg)
  else if p = 49 then (a, fg, Color.BLACK)
  else if 90 ≤ p ∧ p ≤ 97 then
    (a, (ANSI_BRIGHT_COLORS.get? (p - 90)).getD Color.WHITE, bg)
  else if 100 ≤ p ∧ p ≤ 107 then
    (a, fg, (ANSI_BRIGHT_COLORS.get? (p - 100)).getD Color.WHITE)
  else (a, fg, bg)

/-- The loop-index advance of `handle_sgr`'s `while` loop: the `38`/`48` arms
consume two or four extra parameter slots when their guards hold (`i += 2` /
`i += 4`), every arm then does `i += 1`. -/
def sgr_skip (p : Nat) (rest : List Nat) : List Nat :=
  if p = 38 ∨ p = 48 then
    match rest with
    | 5 :: _ :: rest2 => rest2
    | 2 :: _ :: _ :: _ :: rest2 => rest2
    | _ => rest
  else rest

/-- One full iteration of `handle_sgr`'s loop: apply the pen change of
`params[i]`, advance the index. -/
def sgr_apply (b : TerminalBuffer) (p : Nat) (rest : List Nat) :
    TerminalBuffer × List Nat :=
  ({ b with
      current_attrs := (sgr_pen b.current_attrs b.current_fg b.current_bg p rest).1,
      current_fg := (sgr_pen b.current_attrs b.current_fg b.current_bg p rest).2.1,
      current_bg := (sgr_pen b.current_attrs b.current_fg b.current_bg p rest).2.2 },
   sgr_skip p rest)

theorem length_sgr_skip (p : Nat) (rest : List Nat) :
    (sgr_skip p rest).length ≤ rest.length := by
  unfold sgr_skip
  split
  · split
    all_goals try simp only [List.length_cons]
    all_goals omega
  · exact Nat.le_refl _

theorem length_sgr_apply (b : TerminalBuffer) (p : Nat) (rest : List Nat) :
    (sgr_apply b p rest).2.length ≤ rest.length :=
  length_sgr_skip p rest

/-- The `while` loop of `TerminalPerformer::handle_sgr`, driving `sgr_apply`
until the parameter list is exhausted. -/
def handle_sgr_go (b : TerminalBuffer) : List Nat → TerminalBuffer
  | [] => b
  | p :: rest => handle_sgr_go (sgr_apply b p rest).1 (sgr_apply b p rest).2
termination_by ps => ps.length
decreasing_by
  have := length_sgr_apply b p rest
  simp only [List.length_cons]
  omega

/-- `TerminalPerformer::handle_sgr`. -/
def handle_sgr (b : TerminalBuffer) (params : List Nat) : TerminalBuffer :=
  if params = [] then b.reset_attrs else handle_sgr_go b params

/-- One parameter of `TerminalPerformer::handle_mode`'s `for param in params`
loop. -/
def handle_mode_one (is_dec : Bool) (enable : Bool) (b : TerminalBuffer) (p : Nat) :
    TerminalBuffer :=
  if is_dec then
    if p = 6 then b.set_origin_mode enable
    else if p = 7 then b.set_auto_wrap enable
    else if p = 47 ∨ p = 1047 then
      if enable then b.switch_to_alternate else b.switch_to_main
    else if p = 1049 then
      if enable then ((b.save_cursor).switch_to_alternate).clear
      else (b.switch_to_main).restore_cursor
    else b
  else
    if p = 4 then b.set_insert_mode enable else b

/-- `TerminalPerformer::handle_mode`. -/
def handle_mode (b : TerminalBuffer) (intermediates : List Nat) (params : List Nat)
    (enable : Bool) : TerminalBuffer :=
  let is_dec := intermediates.contains 0x3f
  params.foldl (handle_mode_one is_dec enable) b

/-- The closure `param(i, default)` of `csi_dispatch`. -/
def paramAt (params : List Nat) (i : Nat) (default : Nat) : Nat :=
  (params.get? i).getD default

/-- `TerminalPerformer::csi_dispatch`, after `vte`'s `Params` have been
flattened to their leading sub-parameters (`params.iter().map(|p| p[0])`). -/
def csi_dispatch (b : TerminalBuffer) (params : List Nat) (intermediates : List Nat)
    (c : Char) : TerminalBuffer :=
  if c = 'A' then b.move_cursor 0 (-(max (paramAt params 0 1) 1 : Nat))
  else if c = 'B' then b.move_cursor 0 (max (paramAt params 0 1) 1 : Nat)
  else if c = 'C' then b.move_cursor (max (paramAt params 0 1) 1 : Nat) 0
  else if c = 'D' then b.move_cursor (-(max (paramAt params 0 1) 1 : Nat)) 0
  else if c = 'E' then
    let b := b.move_cursor 0 (max (paramAt params 0 1) 1 : Nat)
    b.set_cursor 0 b.cursor_y
  else if c = 'F' then
    let b := b.move_cursor 0 (-(max (paramAt params 0 1) 1 : Nat))
    b.set_cursor 0 b.cursor_y
  else if c = 'G' then b.set_cursor (paramAt params 0 1 - 1) b.cursor_y
  else if c = 'H' ∨ c = 'f' then b.set_cursor (paramAt params 1 1 - 1) (paramAt params 0 1 - 1)
  else if c = 'J' then
    if paramAt params 0 0 = 0 then b.clear_to_end
    else if paramAt params 0 0 = 1 then b.clear_to_start
    else if paramAt params 0 0 = 2 ∨ paramAt params 0 0 = 3 then b.clear
    else b
  else if c = 'K' then
    if paramAt params 0 0 = 0 then b.clear_line_to_end
    else if paramAt params 0 0 = 1 then b.clear_line_to_start
    else if paramAt params 0 0 = 2 then b.clear_line
    else b
  else if c = 'L' then b.insert_lines (paramAt params 0 1)
  else if c = 'M' then b.delete_lines (paramAt params 0 1)
  else if c = 'P' then b.delete_chars (paramAt params 0 1)
  else if c = 'S' then b.scroll_up (paramAt params 0 1)
  else if c = 'T' then b.scroll_down (paramAt params 0 1)
  else if c = 'X' then b.erase_chars (paramAt params 0 1)
  else if c = '@' then b.insert_blank (paramAt params 0 1)
  else if c = 'd' then b.set_cursor b.cursor_x (paramAt params 0 1 - 1)
  else if c = 'm' then handle_sgr b params
  else if c = 'r' then b.set_scroll_region (paramAt params 0 1 - 1) (paramAt params 1 b.size.rows - 1)
  else if c = 's' then b.save_cursor
  else if c = 'u' then b.restore_cursor
  else if c = 'h' then handle_mode b intermediates params true
  else if c = 'l' then handle_mode b intermediates params false
  else b

/-- `TerminalPerformer::esc_dispatch` (only the empty-intermediates arms act). -/
def esc_dispatch (b : TerminalBuffer) (intermediates : List Nat) (byte : Nat) :
    TerminalBuffer :=
  if intermediates = [] then
    if byte = 0x37 then b.save_cursor
    else if byte = 0x38 then b.restore_cursor
    else if byte = 0x44 then b.scroll_up 1
    else if byte = 0x4d then b.scroll_down 1
    else if byte = 0x63 then ((b.clear).reset_attrs).set_cursor 0 0
    else b
  else b

/-- `TerminalPerformer::execute`. -/
def executeCtl (b : TerminalBuffer) (byte : Nat) : TerminalBuffer :=
  if byte = 0x07 then b
  else if byte = 0x08 then
    if b.cursor_x > 0 then b.move_cursor (-1) 0 else b
  else if byte = 0x09 then b.write_char '\t'
  else if byte = 0x0a ∨ byte = 0x0b ∨ byte = 0x0c then b.write_char '\n'
  else if byte = 0x0d then b.write_char '\r'
  else b

end TabSsh

namespace TabSsh

/-- Modelled from the spec: the states of the escape-sequence interpreter's
finite-state machine (§4.3 — Ground, Escape, CSI, OSC-string). The machine
itself lives in the external `vte` crate and is not part of this repository's
sources. -/
inductive FsmState where
  | Ground
  | Escape
  | Csi
  | Osc
deriving DecidableEq, Repr

/-- Modelled from the spec: the persistent scalar state of the interpreter
(§4.3/§5 — "current FSM state, accumulated parameter list", intermediate
bytes; parameter values are `u16`, saturating at 65535). `cur` is the
parameter currently being accumulated (none when no digit of it has been
seen). -/
structure FsmData where
  state : FsmState
  params : List Nat
  cur : Option Nat
  inters : List Nat
deriving DecidableEq, Repr

/-- The interpreter's initial state (`vte::Parser::new()`): Ground with no
accumulated data. -/
def FsmData.initial : FsmData :=
  { state := .Ground, params := [], cur := none, inters := [] }

/-- `TerminalParser` from `src/terminal/parser.rs`: the composed interpreter
state and buffer. -/
structure TermMachine where
  fsm : FsmData
  buffer : TerminalBuffer
deriving DecidableEq, Repr

/-- `TerminalParser::new`. -/
def TermMachine.new (cols rows scrollback : Nat) : TermMachine :=
  { fsm := FsmData.initial, buffer := TerminalBuffer.new cols rows scrollback }

/-- Modelled from the spec: one `vte::Parser::advance` step (§4.3). Ground
prints bytes ≥ 0x20 (multi-byte UTF-8 is modelled per byte) and executes C0
controls; ESC enters Escape; `[`/`]` classify to CSI/OSC; CSI accumulates
digits (saturating at the `u16` cap), `;`-separators, and
intermediate/private-marker bytes, dispatching on a final byte in
`0x40..=0x7e`; OSC is consumed until BEL, with ESC re-entering Escape (ESC-`\`
string terminator). C0 controls inside CSI are executed without leaving the
sequence. -/
def step (m : TermMachine) (byte : Nat) : TermMachine :=
  let p := m.fsm
  let b := m.buffer
  match p.state with
  | .Ground =>
    if byte = 0x1b then { m with fsm := { p with state := .Escape } }
    else if byte < 0x20 then { m with buffer := executeCtl b byte }
    else { m with buffer := b.write_char (Char.ofNat byte) }
  | .Escape =>
    if byte = 0x5b then
      { m with fsm := { state := .Csi, params := [], cur := none, inters := [] } }
    else if byte = 0x5d then { m with fsm := { p with state := .Osc } }
    else { fsm := { p with state := .Ground }, buffer := esc_dispatch b [] byte }
  | .Csi =>
    if 0x30 ≤ byte ∧ byte ≤ 0x39 then
      { m with fsm :=
          { p with cur := some (min (p.cur.getD 0 * 10 + (byte - 0x30)) 65535) } }
    else if byte = 0x3b then
      { m with fsm := { p with params := p.params ++ [p.cur.getD 0], cur := none } }
    else if (0x20 ≤ byte ∧ byte ≤ 0x2f) ∨ (0x3c ≤ byte ∧ byte ≤ 0x3f) then
      { m with fsm := { p with inters := p.inters ++ [byte] } }
    else if byte = 0x1b then { m with fsm := { p with state := .Escape } }
    else if byte < 0x20 then { m with buffer := executeCtl b byte }
    else if 0x40 ≤ byte ∧ byte ≤ 0x7e then
      let ps := p.params ++ (match p.cur with | some v => [v] | none => [])
      { fsm := { state := .Ground, params := [], cur := none, inters := [] },
        buffer := csi_dispatch b ps p.inters (Char.ofNat byte) }
    else m
  | .Osc =>
    if byte = 0x07 then { m with fsm := { p with state := .Ground } }
    else if byte = 0x1b then { m with fsm := { p with state := .Escape } }
    else m

/-- `TerminalParser::process`: `for byte in data { parser.advance(performer,
byte) }` — a left fold of the per-byte step over the persistent machine
state (`src/terminal/parser.rs:46-54`). -/
def process (m : TermMachine) (data : List Nat) : TermMachine :=
  data.foldl step m

end TabSsh

namespace TabSsh

/-! ## List index utilities -/

theorem get?_set (l : List α) (n i : Nat) (a : α) :
    (l.set n a).get? i = if n = i ∧ n < l.length then some a else l.get? i := by
  induction l generalizing n i with
  | nil => simp
  | cons x xs ih =>
    cases n with
    | zero => cases i <;> simp
    | succ n =>
      cases i with
      | zero => simp
      | succ i =>
        simp only [List.set, List.get?, ih, List.length_cons]
        by_cases h : n = i ∧ n < xs.length
        · simp [h.1, h.2, Nat.succ_lt_succ h.2]
        · rw [if_neg h, if_neg]; omega

theorem length_set (l : List α) (n : Nat) (a : α) : (l.set n a).length = l.length :=
  List.length_set l n a

theorem get?_eraseIdx_of_lt (l : List α) (n i : Nat) (h : i < n) :
    (l.eraseIdx n).get? i = l.get? i := by
  induction l generalizing n i with
  | nil => simp
  | cons x xs ih =>
    cases n with
    | zero => omega
    | succ n =>
      cases i with
      | zero => simp [List.eraseIdx]
      | succ i => simpa [List.eraseIdx] using ih n i (by omega)

theorem get?_eraseIdx_of_ge (l : List α) (n i : Nat) (h : n ≤ i) :
    (l.eraseIdx n).get? i = if n < l.length then l.get? (i + 1) else l.get? i := by
  induction l generalizing n i with
  | nil => simp
  | cons x xs ih =>
    cases n with
    | zero => simp [List.eraseIdx]
    | succ n =>
      cases i with
      | zero => omega
      | succ i =>
        simp only [List.eraseIdx, List.get?, List.length_cons]
        rw [ih n i (by omega)]
        by_cases hl : n < xs.length
        · simp [hl, Nat.succ_lt_succ hl]
        · rw [if_neg hl, if_neg (by omega)]

theorem length_eraseIdx_lt (l : List α) (n : Nat) (h : n < l.length) :
    (l.eraseIdx n).length = l.length - 1 := by
  induction l generalizing n with
  | nil => simp at h
  | cons x xs ih =>
    cases n with
    | zero => simp [List.eraseIdx]
    | succ n =>
      simp only [List.eraseIdx, List.length_cons]
      rw [ih n (by simpa using Nat.lt_of_succ_lt_succ h)]
      simp at h
      omega

theorem get?_insertIdx_of_lt (l : List α) (n i : Nat) (a : α) (h : i < n) :
    (l.insertIdx n a).get? i = l.get? i := by
  induction l generalizing n i with
  | nil =>
    cases n with
    | zero => omega
    | succ n => simp
  | cons x xs ih =>
    cases n with
    | zero => omega
    | succ n =>
      cases i with
      | zero => simp [List.insertIdx]
      | succ i => simpa [List.insertIdx] using ih n i (by omega)

theorem get?_insertIdx_self (l : List α) (n : Nat) (a : α) (h : n ≤ l.length) :
    (l.insertIdx n a).get? n = some a := by
  induction l generalizing n with
  | nil =>
    cases n with
    | zero => rfl
    | succ n => simp at h
  | cons x xs ih =>
    cases n with
    | zero => rfl
    | succ n => simpa [List.insertIdx] using ih n (by simpa using h)

theorem get?_insertIdx_of_gt (l : List α) (n i : Nat) (a : α) (hn : n ≤ l.length)
    (h : n < i) : (l.insertIdx n a).get? i = l.get? (i - 1) := by
  induction l generalizing n i with
  | nil =>
    cases n with
    | zero =>
      cases i with
      | zero => omega
      | succ i => simp
    | succ n => simp at hn
  | cons x xs ih =>
    cases n with
    | zero =>
      cases i with
      | zero => omega
      | succ i => simp [List.insertIdx]
    | succ n =>
      cases i with
      | zero => omega
      | succ i =>
        simp only [List.insertIdx, List.get?]
        rw [show (i + 1 - 1) = (i - 1) + 1 by omega] at *
        cases i with
        | zero => omega
        | succ j =>
          have := ih n (j + 1) (by simpa using hn) (by omega)
          simpa [List.insertIdx] using this

theorem get?_replicate (a : α) (n i : Nat) :
    (List.replicate n a).get? i = if i < n then some a else none := by
  induction n generalizing i with
  | zero => simp
  | succ n ih =>
    cases i with
    | zero => simp
    | succ i =>
      show (List.replicate n a).get? i = _
      rw [ih i]
      by_cases h : i < n
      · rw [if_pos h, if_pos (by omega)]
      · rw [if_neg h, if_neg (by omega)]

end TabSsh

namespace TabSsh

/-! ## Loop characterizations -/

open TerminalBuffer

theorem length_copyUpAux (f : Nat) : ∀ (s : List Row) (t : Nat),
    (copyUpAux s t f).length = s.length := by
  induction f with
  | zero => intro s t; rfl
  | succ f ih =>
    intro s t
    simp only [copyUpAux]
    split
    · split
      · rw [ih]; simp [length_set]
      · rw [ih]
    · rw [ih]

theorem get?_copyUpAux (f : Nat) : ∀ (s : List Row) (t r : Nat),
    (copyUpAux s t f).get? r =
      if t ≤ r ∧ r < t + f ∧ r + 1 < s.length then s.get? (r + 1) else s.get? r := by
  induction f with
  | zero =>
    intro s t r
    rw [if_neg (by omega)]
    rfl
  | succ f ih =>
    intro s t r
    simp only [copyUpAux]
    by_cases hlen : t + 1 < s.length
    · rw [if_pos hlen]
      cases hv : s.get? (t + 1) with
      | none =>
        exact absurd (List.get?_eq_none.mp hv) (by omega)
      | some v =>
        rw [ih (s.set t v) (t + 1) r, length_set]
        by_cases hrt : t = r
        · subst hrt
          rw [if_neg (by omega), get?_set, if_pos ⟨rfl, by omega⟩,
            if_pos ⟨Nat.le_refl t, by omega, hlen⟩, hv]
        · by_cases hr : t + 1 ≤ r ∧ r < t + 1 + f ∧ r + 1 < s.length
          · rw [if_pos hr, get?_set, if_neg (by omega), if_pos (by omega)]
          · rw [if_neg hr, get?_set, if_neg (by omega), if_neg (by omega)]
    · rw [if_neg hlen]
      rw [ih s (t + 1) r]
      by_cases hr : t + 1 ≤ r ∧ r < t + 1 + f ∧ r + 1 < s.length
      · rw [if_pos hr, if_pos (by omega)]
      · rw [if_neg hr, if_neg (by omega)]

theorem length_copyDownAux (f : Nat) : ∀ (s : List Row) (t : Nat),
    (copyDownAux s t f).length = s.length := by
  induction f with
  | zero => intro s t; rfl
  | succ f ih =>
    intro s t
    simp only [copyDownAux]
    split
    · split
      · rw [ih]; simp [length_set]
      · rw [ih]
    · rw [ih]

theorem length_clearCellsAux (f : Nat) : ∀ (row : Row) (x : Nat),
    (clearCellsAux row x f).length = row.length := by
  induction f with
  | zero => intro row x; rfl
  | succ f ih =>
    intro row x
    simp only [clearCellsAux]
    split
    · rw [ih]; simp [length_set]
    · rw [ih]

theorem get?_clearCellsAux (f : Nat) : ∀ (row : Row) (x i : Nat),
    (clearCellsAux row x f).get? i =
      if x ≤ i ∧ i < x + f then (row.get? i).map Cell.clearCell else row.get? i := by
  induction f with
  | zero =>
    intro row x i
    rw [if_neg (by omega)]
    rfl
  | succ f ih =>
    intro row x i
    simp only [clearCellsAux]
    cases hx : row.get? x with
    | none =>
      rw [ih row (x + 1) i]
      by_cases hr : x + 1 ≤ i ∧ i < x + 1 + f
      · rw [if_pos hr, if_pos (by omega)]
      · rw [if_neg hr]
        by_cases hxi : x = i
        · subst hxi
          rw [if_pos (by omega), hx]
          rfl
        · rw [if_neg (by omega)]
    | some c =>
      rw [ih (row.set x c.clearCell) (x + 1) i, get?_set]
      have hxlen : x < row.length := (List.get?_eq_some.mp hx).1
      by_cases hxi : x = i
      · subst hxi
        rw [if_neg (by omega), if_pos ⟨rfl, hxlen⟩, if_pos (by omega), hx]
        rfl
      · by_cases hr : x + 1 ≤ i ∧ i < x + 1 + f
        · rw [if_pos hr, if_neg (by omega), if_pos (by omega)]
        · rw [if_neg hr, if_neg (by omega), if_neg (by omega)]

theorem length_clearRowsAux (f : Nat) : ∀ (s : List Row) (y : Nat),
    (clearRowsAux s y f).length = s.length := by
  induction f with
  | zero => intro s y; rfl
  | succ f ih =>
    intro s y
    simp only [clearRowsAux]
    split
    · rw [ih]; simp [length_set]
    · rw [ih]

theorem get?_clearRowsAux (f : Nat) : ∀ (s : List Row) (y r : Nat),
    (clearRowsAux s y f).get? r =
      if y ≤ r ∧ r < y + f then (s.get? r).map (List.map Cell.clearCell)
      else s.get? r := by
  induction f with
  | zero =>
    intro s y r
    rw [if_neg (by omega)]
    rfl
  | succ f ih =>
    intro s y r
    simp only [clearRowsAux]
    cases hy : s.get? y with
    | none =>
      rw [ih s (y + 1) r]
      by_cases hr : y + 1 ≤ r ∧ r < y + 1 + f
      · rw [if_pos hr, if_pos (by omega)]
      · rw [if_neg hr]
        by_cases hyr : y = r
        · subst hyr
          rw [if_pos (by omega), hy]
          rfl
        · rw [if_neg (by omega)]
    | some row =>
      rw [ih (s.set y (row.map Cell.clearCell)) (y + 1) r, get?_set]
      have hylen : y < s.length := (List.get?_eq_some.mp hy).1
      by_cases hyr : y = r
      · subst hyr
        rw [if_neg (by omega), if_pos ⟨rfl, hylen⟩, if_pos (by omega), hy]
        rfl
      · by_cases hr : y + 1 ≤ r ∧ r < y + 1 + f
        · rw [if_pos hr, if_neg (by omega), if_pos (by omega)]
        · rw [if_neg hr, if_neg (by omega), if_neg (by omega)]

theorem length_evictOldest (maxSb : Nat) : ∀ (l : List Row),
    (evictOldest maxSb l).length ≤ maxSb := by
  intro l
  induction l with
  | nil => simp [evictOldest]
  | cons x xs ih =>
    simp only [evictOldest]
    split
    · exact ih
    · omega

theorem evictOldest_of_le (maxSb : Nat) (l : List Row) (h : l.length ≤ maxSb) :
    evictOldest maxSb l = l := by
  cases l with
  | nil => rfl
  | cons x xs =>
    simp only [evictOldest]
    rw [if_neg (by omega)]

theorem evictOldest_of_succ (maxSb : Nat) (l : List Row) (h : l.length = maxSb + 1) :
    evictOldest maxSb l = l.tail := by
  cases l with
  | nil => simp at h
  | cons x xs =>
    simp only [evictOldest]
    rw [if_pos (by omega)]
    simp only [List.tail_cons]
    exact evictOldest_of_le maxSb xs (by simp at h; omega)

theorem length_insertBlankRow (cx : Nat) (count : Nat) : ∀ (row : Row),
    (insertBlankRow cx count row).length = row.length := by
  induction count with
  | zero => intro row; rfl
  | succ count ih =>
    intro row
    simp only [insertBlankRow]
    split
    · rename_i h
      rw [ih]
      rw [List.length_dropLast, List.length_insertIdx cx row (by omega)]
      omega
    · rw [ih]

theorem length_deleteCharsRow (cx : Nat) (count : Nat) : ∀ (row : Row),
    (deleteCharsRow cx count row).length = row.length := by
  induction count with
  | zero => intro row; rfl
  | succ count ih =>
    intro row
    simp only [deleteCharsRow]
    split
    · rename_i h
      rw [ih]
      simp [length_eraseIdx_lt row cx h]
      omega
    · rw [ih]

theorem length_resizeScreen (old : List Row) (new_cols new_rows : Nat) :
    (resizeScreen old new_cols new_rows).length = new_rows := by
  simp [resizeScreen]

theorem get?_resizeScreen (old : List Row) (new_cols new_rows y : Nat) :
    (resizeScreen old new_cols new_rows).get? y =
      if y < new_rows then
        some ((List.range new_cols).map fun x =>
          match old.get? y with
          | some row => (row.get? x).getD Cell.default
          | none => Cell.default)
      else none := by
  simp only [resizeScreen]
  rw [List.get?_eq_getElem?]
  by_cases h : y < new_rows
  · rw [if_pos h]
    rw [List.getElem?_map, List.getElem?_range h]
    rfl
  · rw [if_neg h]
    rw [List.getElem?_map]
    rw [List.getElem?_eq_none (by simpa using Nat.le_of_not_lt h)]
    rfl

end TabSsh

namespace TabSsh

open TerminalBuffer

/-! ## The grid/cursor invariant -/

/-- A well-formed `rows × cols` grid. -/
def GridShape (cols rows : Nat) (s : List Row) : Prop :=
  s.length = rows ∧ ∀ i row, s.get? i = some row → row.length = cols

/-- The state invariant maintained by every buffer operation reachable from
`process` on a buffer of fixed size `cols × rows` (`cols, rows ≥ 1`):
the grid has exactly `rows` rows of `cols` cells, the cursor satisfies
`x ≤ cols` (the deferred-wrap column `x = cols` is reachable) and `y < rows`,
the saved cursor likewise, the scroll region is ordered and in range, any
saved primary screen/cursor satisfy the same bounds, and the scrollback is
within its cap. -/
structure Inv (cols rows : Nat) (b : TerminalBuffer) : Prop where
  cpos : 1 ≤ cols
  rpos : 1 ≤ rows
  scols : b.size.cols = cols
  srows : b.size.rows = rows
  shape : GridShape cols rows b.screen
  cx : b.cursor_x ≤ cols
  cy : b.cursor_y < rows
  sx : b.saved_cursor_x ≤ cols
  sy : b.saved_cursor_y < rows
  stb : b.scroll_top ≤ b.scroll_bottom
  sbr : b.scroll_bottom < rows
  alts : ∀ g, b.alternate_screen = some g → GridShape cols rows g
  altc : ∀ x y, b.alternate_cursor = some (x, y) → x ≤ cols ∧ y < rows
  sble : b.scrollback.length ≤ b.max_scrollback

theorem gridShape_create_empty (cols rows : Nat) :
    GridShape cols rows (create_empty_screen cols rows) := by
  constructor
  · simp [create_empty_screen]
  · intro i row h
    rw [create_empty_screen, get?_replicate] at h
    split at h
    · cases h; simp
    · cases h

theorem gridShape_set (cols rows : Nat) (s : List Row) (y : Nat) (row : Row)
    (h : GridShape cols rows s) (hr : row.length = cols) :
    GridShape cols rows (s.set y row) := by
  obtain ⟨hl, hrows⟩ := h
  constructor
  · rw [length_set, hl]
  · intro i r hi
    rw [get?_set] at hi
    split at hi
    · cases hi; exact hr
    · exact hrows i r hi

theorem gridShape_setCellAt (cols rows : Nat) (s : List Row) (y x : Nat)
    (f : Cell → Cell) (h : GridShape cols rows s) :
    GridShape cols rows (setCellAt s y x f) := by
  unfold setCellAt
  split
  · exact h
  · rename_i row hy
    split
    · exact h
    · rename_i c hx
      exact gridShape_set cols rows s y (row.set x (f c)) h
        (by rw [length_set]; exact h.2 y row hy)

theorem gridShape_copyUpAux (cols rows : Nat) (f : Nat) : ∀ (s : List Row) (t : Nat),
    GridShape cols rows s → GridShape cols rows (copyUpAux s t f) := by
  intro s t h
  constructor
  · rw [length_copyUpAux, h.1]
  · intro i r hi
    rw [get?_copyUpAux] at hi
    split at hi
    · exact h.2 _ r hi
    · exact h.2 i r hi

theorem gridShape_copyDownAux (cols rows : Nat) (f : Nat) : ∀ (s : List Row) (t : Nat),
    GridShape cols rows s → GridShape cols rows (copyDownAux s t f) := by
  induction f with
  | zero => intro s t h; exact h
  | succ f ih =>
    intro s t h
    rw [copyDownAux]
    split
    · split
      · rename_i v hv
        exact ih _ t (gridShape_set cols rows s _ v h (h.2 _ v hv))
      · exact ih s t h
    · exact ih s t h

end TabSsh

namespace TabSsh

open TerminalBuffer

theorem Inv.replace {c r : Nat} {b : TerminalBuffer} (h : Inv c r b)
    (s' sb' : List Row) (hs : GridShape c r s')
    (hsb : sb'.length ≤ b.max_scrollback) :
    Inv c r { b with screen := s', scrollback := sb' } :=
  ⟨h.cpos, h.rpos, h.scols, h.srows, hs, h.cx, h.cy, h.sx, h.sy, h.stb, h.sbr,
   h.alts, h.altc, hsb⟩

theorem Inv.screenOnly {c r : Nat} {b : TerminalBuffer} (h : Inv c r b)
    (s' : List Row) (hs : GridShape c r s') :
    Inv c r { b with screen := s' } :=
  ⟨h.cpos, h.rpos, h.scols, h.srows, hs, h.cx, h.cy, h.sx, h.sy, h.stb, h.sbr,
   h.alts, h.altc, h.sble⟩

theorem Inv.cursorXY {c r : Nat} {b : TerminalBuffer} (h : Inv c r b)
    (x' y' : Nat) (hx : x' ≤ c) (hy : y' < r) :
    Inv c r { b with cursor_x := x', cursor_y := y' } :=
  ⟨h.cpos, h.rpos, h.scols, h.srows, h.shape, hx, hy, h.sx, h.sy, h.stb, h.sbr,
   h.alts, h.altc, h.sble⟩

theorem Inv.cursorX {c r : Nat} {b : TerminalBuffer} (h : Inv c r b)
    (x' : Nat) (hx : x' ≤ c) : Inv c r { b with cursor_x := x' } :=
  ⟨h.cpos, h.rpos, h.scols, h.srows, h.shape, hx, h.cy, h.sx, h.sy, h.stb, h.sbr,
   h.alts, h.altc, h.sble⟩

theorem Inv.cursorY {c r : Nat} {b : TerminalBuffer} (h : Inv c r b)
    (y' : Nat) (hy : y' < r) : Inv c r { b with cursor_y := y' } :=
  ⟨h.cpos, h.rpos, h.scols, h.srows, h.shape, h.cx, hy, h.sx, h.sy, h.stb, h.sbr,
   h.alts, h.altc, h.sble⟩

theorem inv_set_fg {c r : Nat} {b : TerminalBuffer} (h : Inv c r b) (color : Color) :
    Inv c r (b.set_fg color) :=
  ⟨h.cpos, h.rpos, h.scols, h.srows, h.shape, h.cx, h.cy, h.sx, h.sy, h.stb, h.sbr,
   h.alts, h.altc, h.sble⟩

theorem inv_set_bg {c r : Nat} {b : TerminalBuffer} (h : Inv c r b) (color : Color) :
    Inv c r (b.set_bg color) :=
  ⟨h.cpos, h.rpos, h.scols, h.srows, h.shape, h.cx, h.cy, h.sx, h.sy, h.stb, h.sbr,
   h.alts, h.altc, h.sble⟩

theorem inv_set_attr {c r : Nat} {b : TerminalBuffer} (h : Inv c r b)
    (attr : CellAttributes) : Inv c r (b.set_attr attr) :=
  ⟨h.cpos, h.rpos, h.scols, h.srows, h.shape, h.cx, h.cy, h.sx, h.sy, h.stb, h.sbr,
   h.alts, h.altc, h.sble⟩

theorem inv_reset_attrs {c r : Nat} {b : TerminalBuffer} (h : Inv c r b) :
    Inv c r b.reset_attrs :=
  ⟨h.cpos, h.rpos, h.scols, h.srows, h.shape, h.cx, h.cy, h.sx, h.sy, h.stb, h.sbr,
   h.alts, h.altc, h.sble⟩

theorem inv_set_auto_wrap {c r : Nat} {b : TerminalBuffer} (h : Inv c r b)
    (e : Bool) : Inv c r (b.set_auto_wrap e) :=
  ⟨h.cpos, h.rpos, h.scols, h.srows, h.shape, h.cx, h.cy, h.sx, h.sy, h.stb, h.sbr,
   h.alts, h.altc, h.sble⟩

theorem inv_set_insert_mode {c r : Nat} {b : TerminalBuffer} (h : Inv c r b)
    (e : Bool) : Inv c r (b.set_insert_mode e) :=
  ⟨h.cpos, h.rpos, h.scols, h.srows, h.shape, h.cx, h.cy, h.sx, h.sy, h.stb, h.sbr,
   h.alts, h.altc, h.sble⟩

/-- `scroll_up_once` written as a single record update: the screen becomes the
shifted-and-blanked grid, the scrollback the (possibly evicted) push. -/
theorem scroll_up_once_eq (b : TerminalBuffer) :
    scroll_up_once b =
      { b with
        screen :=
          if b.scroll_bottom <
              (copyUpAux b.screen b.scroll_top (b.scroll_bottom - b.scroll_top)).length then
            (copyUpAux b.screen b.scroll_top (b.scroll_bottom - b.scroll_top)).set
              b.scroll_bottom (List.replicate b.size.cols Cell.default)
          else copyUpAux b.screen b.scroll_top (b.scroll_bottom - b.scroll_top),
        scrollback :=
          if b.scroll_top = 0 then
            match b.screen.get? 0 with
            | some row => evictOldest b.max_scrollback (b.scrollback ++ [row])
            | none => b.scrollback
          else b.scrollback } := by
  unfold scroll_up_once
  split
  · split
    · rfl
    · rfl
  · rfl

theorem inv_scroll_up_once {c r : Nat} {b : TerminalBuffer} (h : Inv c r b) :
    Inv c r (scroll_up_once b) := by
  rw [scroll_up_once_eq]
  refine Inv.replace h _ _ ?_ ?_
  · have hc := gridShape_copyUpAux c r (b.scroll_bottom - b.scroll_top) b.screen
      b.scroll_top h.shape
    split
    · exact gridShape_set c r _ _ _ hc (by rw [List.length_replicate, h.scols])
    · exact hc
  · split
    · split
      · exact length_evictOldest b.max_scrollback _
      · exact h.sble
    · exact h.sble

theorem inv_scroll_up {c r : Nat} (n : Nat) : ∀ {b : TerminalBuffer}, Inv c r b →
    Inv c r (b.scroll_up n) := by
  induction n with
  | zero => intro b h; exact h
  | succ n ih => intro b h; exact ih (inv_scroll_up_once h)

theorem inv_scroll_down_once {c r : Nat} {b : TerminalBuffer} (h : Inv c r b) :
    Inv c r (scroll_down_once b) := by
  unfold scroll_down_once
  have hc := gridShape_copyDownAux c r (b.scroll_bottom - b.scroll_top) b.screen
    b.scroll_top h.shape
  refine Inv.screenOnly h _ ?_
  split
  · exact gridShape_set c r _ _ _ hc (by rw [List.length_replicate, h.scols])
  · exact hc

theorem inv_scroll_down {c r : Nat} (n : Nat) : ∀ {b : TerminalBuffer}, Inv c r b →
    Inv c r (b.scroll_down n) := by
  induction n with
  | zero => intro b h; exact h
  | succ n ih => intro b h; exact ih (inv_scroll_down_once h)

theorem inv_newline {c r : Nat} {b : TerminalBuffer} (h : Inv c r b) :
    Inv c r b.newline := by
  unfold newline
  split
  · exact inv_scroll_up 1 h
  · rename_i hlt
    exact Inv.cursorY h _ (by have := h.sbr; omega)

theorem inv_backspace {c r : Nat} {b : TerminalBuffer} (h : Inv c r b) :
    Inv c r b.backspace := by
  unfold backspace
  split
  · exact Inv.cursorX h _ (by have := h.cx; omega)
  · exact h

theorem inv_tab {c r : Nat} {b : TerminalBuffer} (h : Inv c r b) :
    Inv c r b.tab := by
  unfold tab
  refine Inv.cursorX h _ ?_
  rw [h.scols]
  have := h.cpos
  have := Nat.min_le_right ((b.cursor_x / 8 + 1) * 8) (c - 1)
  omega

end TabSsh

namespace TabSsh

open TerminalBuffer

theorem scroll_up_cursor_x {b : TerminalBuffer} (n : Nat) :
    (b.scroll_up n).cursor_x = b.cursor_x := by
  induction n generalizing b with
  | zero => rfl
  | succ n ih => rw [scroll_up]; rw [ih]; rw [scroll_up_once_eq]

theorem newline_cursor_x (b : TerminalBuffer) : b.newline.cursor_x = b.cursor_x := by
  unfold newline
  split
  · exact scroll_up_cursor_x 1
  · rfl

theorem insert_blank_cursor_x (b : TerminalBuffer) (n : Nat) :
    (b.insert_blank n).cursor_x = b.cursor_x := by
  unfold insert_blank
  split <;> rfl

theorem insert_blank_cursor_y (b : TerminalBuffer) (n : Nat) :
    (b.insert_blank n).cursor_y = b.cursor_y := by
  unfold insert_blank
  split <;> rfl

theorem inv_insert_blank {c r : Nat} {b : TerminalBuffer} (h : Inv c r b) (n : Nat) :
    Inv c r (b.insert_blank n) := by
  unfold insert_blank
  split
  · exact h
  · rename_i row hy
    refine Inv.screenOnly h _ (gridShape_set c r _ _ _ h.shape ?_)
    rw [length_insertBlankRow]
    exact h.shape.2 _ row hy

theorem inv_delete_chars {c r : Nat} {b : TerminalBuffer} (h : Inv c r b) (n : Nat) :
    Inv c r (b.delete_chars n) := by
  unfold delete_chars
  split
  · exact h
  · rename_i row hy
    refine Inv.screenOnly h _ (gridShape_set c r _ _ _ h.shape ?_)
    rw [length_deleteCharsRow]
    exact h.shape.2 _ row hy

theorem inv_write_char {c r : Nat} {b : TerminalBuffer} (h : Inv c r b) (ch : Char) :
    Inv c r (b.write_char ch) := by
  unfold write_char
  split
  · exact inv_newline h
  split
  · exact Inv.cursorX h 0 (Nat.zero_le c)
  split
  · exact inv_backspace h
  split
  · exact inv_tab h
  split
  · exact h
  dsimp only
  set b1 := (if b.cursor_x ≥ b.size.cols then
      if b.auto_wrap then ({ b with cursor_x := 0 } : TerminalBuffer).newline
      else { b with cursor_x := b.size.cols - 1 } else b) with hb1
  have hinv1 : Inv c r b1 := by
    rw [hb1]
    split
    · split
      · exact inv_newline (Inv.cursorX h 0 (Nat.zero_le c))
      · exact Inv.cursorX h _ (by rw [h.scols]; omega)
    · exact h
  have hx1 : b1.cursor_x < c := by
    rw [hb1]
    split
    · split
      · rw [newline_cursor_x]
        exact h.cpos
      · show b.size.cols - 1 < c
        rw [h.scols]
        have := h.cpos
        omega
    · rename_i hge
      have := h.scols
      omega
  set b2 := (if b1.insert_mode then b1.insert_blank 1 else b1) with hb2
  have hinv2 : Inv c r b2 := by
    rw [hb2]
    split
    · exact inv_insert_blank hinv1 1
    · exact hinv1
  have hx2 : b2.cursor_x < c := by
    rw [hb2]
    split
    · rw [insert_blank_cursor_x]; exact hx1
    · exact hx1
  refine Inv.mk hinv2.cpos hinv2.rpos hinv2.scols hinv2.srows ?_ ?_ hinv2.cy
    hinv2.sx hinv2.sy hinv2.stb hinv2.sbr hinv2.alts hinv2.altc hinv2.sble
  · exact gridShape_setCellAt c r _ _ _ _ hinv2.shape
  · simpa using hx2

theorem inv_set_cursor {c r : Nat} {b : TerminalBuffer} (h : Inv c r b) (x y : Nat) :
    Inv c r (b.set_cursor x y) := by
  unfold set_cursor
  dsimp only
  refine Inv.cursorXY h _ _ ?_ ?_
  · rw [h.scols]
    have := h.cpos
    have := Nat.min_le_right x (c - 1)
    omega
  · split
    · have := Nat.min_le_right (y + b.scroll_top) b.scroll_bottom
      have := h.sbr
      omega
    · rw [h.srows]
      have := h.rpos
      have := Nat.min_le_right y (r - 1)
      omega

theorem inv_move_cursor {c r : Nat} {b : TerminalBuffer} (h : Inv c r b) (dx dy : Int) :
    Inv c r (b.move_cursor dx dy) :=
  inv_set_cursor h _ _

theorem inv_clear {c r : Nat} {b : TerminalBuffer} (h : Inv c r b) :
    Inv c r b.clear := by
  unfold clear
  refine Inv.screenOnly h _ ?_
  rw [h.scols, h.srows]
  exact gridShape_create_empty c r

theorem inv_clear_line {c r : Nat} {b : TerminalBuffer} (h : Inv c r b) :
    Inv c r b.clear_line := by
  unfold clear_line
  split
  · exact h
  · rename_i row hy
    refine Inv.screenOnly h _ (gridShape_set c r _ _ _ h.shape ?_)
    rw [List.length_map]
    exact h.shape.2 _ row hy

theorem inv_clear_line_to_end {c r : Nat} {b : TerminalBuffer} (h : Inv c r b) :
    Inv c r b.clear_line_to_end := by
  unfold clear_line_to_end
  split
  · exact h
  · rename_i row hy
    refine Inv.screenOnly h _ (gridShape_set c r _ _ _ h.shape ?_)
    rw [length_clearCellsAux]
    exact h.shape.2 _ row hy

theorem inv_clear_line_to_start {c r : Nat} {b : TerminalBuffer} (h : Inv c r b) :
    Inv c r b.clear_line_to_start := by
  unfold clear_line_to_start
  split
  · exact h
  · rename_i row hy
    refine Inv.screenOnly h _ (gridShape_set c r _ _ _ h.shape ?_)
    rw [length_clearCellsAux]
    exact h.shape.2 _ row hy

theorem inv_erase_chars {c r : Nat} {b : TerminalBuffer} (h : Inv c r b) (n : Nat) :
    Inv c r (b.erase_chars n) := by
  unfold erase_chars
  split
  · exact h
  · rename_i row hy
    refine Inv.screenOnly h _ (gridShape_set c r _ _ _ h.shape ?_)
    rw [length_clearCellsAux]
    exact h.shape.2 _ row hy

theorem gridShape_clearRowsAux {c r : Nat} {s : List Row} (h : GridShape c r s)
    (y f : Nat) : GridShape c r (clearRowsAux s y f) := by
  constructor
  · rw [length_clearRowsAux, h.1]
  · intro i row hi
    rw [get?_clearRowsAux] at hi
    split at hi
    · cases hq : s.get? i with
      | none => rw [hq] at hi; cases hi
      | some row0 =>
        rw [hq] at hi
        cases hi
        rw [List.length_map]
        exact h.2 i row0 hq
    · exact h.2 i row hi

theorem inv_clear_to_end {c r : Nat} {b : TerminalBuffer} (h : Inv c r b) :
    Inv c r b.clear_to_end := by
  unfold clear_to_end
  dsimp only
  have h1 := inv_clear_line_to_end h
  exact Inv.screenOnly h1 _ (gridShape_clearRowsAux h1.shape _ _)

theorem inv_clear_to_start {c r : Nat} {b : TerminalBuffer} (h : Inv c r b) :
    Inv c r b.clear_to_start := by
  unfold clear_to_start
  dsimp only
  have h1 : Inv c r { b with screen := clearRowsAux b.screen 0 b.cursor_y } :=
    Inv.screenOnly h _ (gridShape_clearRowsAux h.shape _ _)
  exact inv_clear_line_to_start h1

end TabSsh

namespace TabSsh

open TerminalBuffer

theorem rows_eraseIdx {c : Nat} {s : List Row} (k : Nat)
    (h2 : ∀ i row, s.get? i = some row → row.length = c) :
    ∀ i row, (s.eraseIdx k).get? i = some row → row.length = c := by
  intro i row hi
  rcases Nat.lt_or_ge i k with hik | hik
  · rw [get?_eraseIdx_of_lt s k i hik] at hi
    exact h2 _ _ hi
  · rw [get?_eraseIdx_of_ge s k i hik] at hi
    split at hi
    · exact h2 _ _ hi
    · exact h2 _ _ hi

theorem rows_insertIdx {c : Nat} {s : List Row} (k : Nat) (v : Row)
    (hk : k ≤ s.length) (hv : v.length = c)
    (h2 : ∀ i row, s.get? i = some row → row.length = c) :
    ∀ i row, (s.insertIdx k v).get? i = some row → row.length = c := by
  intro i row hi
  rcases Nat.lt_trichotomy i k with hik | hik | hik
  · rw [get?_insertIdx_of_lt s k i v hik] at hi
    exact h2 _ _ hi
  · subst hik
    rw [get?_insertIdx_self s i v hk] at hi
    cases hi
    exact hv
  · rw [get?_insertIdx_of_gt s k i v hk hik] at hi
    exact h2 _ _ hi

theorem gridShape_erase_insert {c r : Nat} {s : List Row} (h : GridShape c r s)
    (ke ki : Nat) (hke : ke < r) (hki : ki ≤ r - 1) :
    GridShape c r ((s.eraseIdx ke).insertIdx ki (blankRow c)) := by
  have hrpos : 1 ≤ r := Nat.lt_of_le_of_lt (Nat.zero_le ke) hke
  have hel : (s.eraseIdx ke).length = r - 1 := by
    rw [length_eraseIdx_lt s ke (by rw [h.1]; exact hke), h.1]
  constructor
  · rw [List.length_insertIdx ki _ (by rw [hel]; exact hki), hel]
    omega
  · exact rows_insertIdx ki (blankRow c) (by rw [hel]; exact hki)
      (by simp [blankRow]) (rows_eraseIdx ke h.2)

theorem inv_insert_lines {c r : Nat} (n : Nat) : ∀ {b : TerminalBuffer}, Inv c r b →
    Inv c r (b.insert_lines n) := by
  induction n with
  | zero => intro b h; exact h
  | succ n ih =>
    intro b h
    rw [insert_lines]
    split
    · rename_i hcy
      refine ih (Inv.screenOnly h _ ?_)
      rw [h.scols]
      exact gridShape_erase_insert h.shape _ _ h.sbr (by have := h.cy; omega)
    · exact ih h

theorem inv_delete_lines {c r : Nat} (n : Nat) : ∀ {b : TerminalBuffer}, Inv c r b →
    Inv c r (b.delete_lines n) := by
  induction n with
  | zero => intro b h; exact h
  | succ n ih =>
    intro b h
    rw [delete_lines]
    split
    · rename_i hcy
      refine ih (Inv.screenOnly h _ ?_)
      rw [h.scols]
      exact gridShape_erase_insert h.shape _ _ h.cy (by have := h.sbr; omega)
    · exact ih h

theorem inv_save_cursor {c r : Nat} {b : TerminalBuffer} (h : Inv c r b) :
    Inv c r b.save_cursor :=
  ⟨h.cpos, h.rpos, h.scols, h.srows, h.shape, h.cx, h.cy, h.cx, h.cy, h.stb, h.sbr,
   h.alts, h.altc, h.sble⟩

theorem inv_restore_cursor {c r : Nat} {b : TerminalBuffer} (h : Inv c r b) :
    Inv c r b.restore_cursor :=
  ⟨h.cpos, h.rpos, h.scols, h.srows, h.shape, h.sx, h.sy, h.sx, h.sy, h.stb, h.sbr,
   h.alts, h.altc, h.sble⟩

theorem inv_set_scroll_region {c r : Nat} {b : TerminalBuffer} (h : Inv c r b)
    (top bottom : Nat) : Inv c r (b.set_scroll_region top bottom) := by
  unfold set_scroll_region
  dsimp only
  refine ⟨h.cpos, h.rpos, h.scols, h.srows, h.shape, h.cx, h.cy, h.sx, h.sy, ?_, ?_,
    h.alts, h.altc, h.sble⟩
  · exact Nat.le_max_right _ _
  · show max (min bottom (b.size.rows - 1)) (min top (b.size.rows - 1)) < r
    rw [h.srows]
    have := h.rpos
    have := Nat.min_le_right bottom (r - 1)
    have := Nat.min_le_right top (r - 1)
    omega

theorem inv_reset_scroll_region {c r : Nat} {b : TerminalBuffer} (h : Inv c r b) :
    Inv c r b.reset_scroll_region := by
  unfold reset_scroll_region
  refine ⟨h.cpos, h.rpos, h.scols, h.srows, h.shape, h.cx, h.cy, h.sx, h.sy, ?_, ?_,
    h.alts, h.altc, h.sble⟩
  · exact Nat.zero_le _
  · show b.size.rows - 1 < r
    rw [h.srows]
    have := h.rpos
    omega

theorem inv_switch_to_alternate {c r : Nat} {b : TerminalBuffer} (h : Inv c r b) :
    Inv c r b.switch_to_alternate := by
  unfold switch_to_alternate
  split
  · dsimp only
    refine ⟨h.cpos, h.rpos, h.scols, h.srows, ?_, Nat.zero_le c, h.rpos, h.sx, h.sy,
      h.stb, h.sbr, ?_, ?_, h.sble⟩
    · show GridShape c r (create_empty_screen b.size.cols b.size.rows)
      rw [h.scols, h.srows]
      exact gridShape_create_empty c r
    · intro g hg
      cases hg
      exact h.shape
    · intro x y hxy
      cases hxy
      exact ⟨h.cx, h.cy⟩
  · exact h

theorem inv_switch_to_main {c r : Nat} {b : TerminalBuffer} (h : Inv c r b) :
    Inv c r b.switch_to_main := by
  unfold switch_to_main
  split
  · exact h
  · rename_i g hg
    have hgs : GridShape c r g := h.alts g hg
    dsimp only
    split
    · exact ⟨h.cpos, h.rpos, h.scols, h.srows, hgs, h.cx, h.cy, h.sx, h.sy, h.stb,
        h.sbr, (by intro g' hg'; cases hg'), h.altc, h.sble⟩
    · rename_i x y hxy
      have hb := h.altc x y hxy
      exact ⟨h.cpos, h.rpos, h.scols, h.srows, hgs, hb.1, hb.2, h.sx, h.sy, h.stb,
        h.sbr, (by intro g' hg'; cases hg'), (by intro x' y' hxy'; cases hxy'), h.sble⟩

theorem inv_set_origin_mode {c r : Nat} {b : TerminalBuffer} (h : Inv c r b)
    (e : Bool) : Inv c r (b.set_origin_mode e) := by
  unfold set_origin_mode
  dsimp only
  have h1 : Inv c r { b with origin_mode := e } :=
    ⟨h.cpos, h.rpos, h.scols, h.srows, h.shape, h.cx, h.cy, h.sx, h.sy, h.stb, h.sbr,
     h.alts, h.altc, h.sble⟩
  split
  · exact inv_set_cursor h1 0 0
  · exact h1

end TabSsh

namespace TabSsh

open TerminalBuffer

theorem inv_sgr_apply {c r : Nat} {b : TerminalBuffer} (h : Inv c r b)
    (p : Nat) (rest : List Nat) : Inv c r (sgr_apply b p rest).1 :=
  ⟨h.cpos, h.rpos, h.scols, h.srows, h.shape, h.cx, h.cy, h.sx, h.sy, h.stb, h.sbr,
   h.alts, h.altc, h.sble⟩

theorem inv_handle_sgr_go_aux {c r : Nat} (n : Nat) :
    ∀ (params : List Nat), params.length ≤ n →
      ∀ {b : TerminalBuffer}, Inv c r b → Inv c r (handle_sgr_go b params) := by
  induction n with
  | zero =>
    intro params hlen b h
    have hp : params = [] := List.eq_nil_of_length_eq_zero (Nat.le_zero.mp hlen)
    subst hp
    rw [handle_sgr_go]
    exact h
  | succ n ih =>
    intro params hlen b h
    cases params with
    | nil => rw [handle_sgr_go]; exact h
    | cons p rest =>
      rw [handle_sgr_go]
      refine ih _ ?_ (inv_sgr_apply h p rest)
      have := length_sgr_apply b p rest
      simp only [List.length_cons] at hlen
      omega

theorem inv_handle_sgr_go {c r : Nat} (params : List Nat) {b : TerminalBuffer}
    (h : Inv c r b) : Inv c r (handle_sgr_go b params) :=
  inv_handle_sgr_go_aux params.length params (Nat.le_refl _) h

theorem inv_handle_sgr {c r : Nat} {b : TerminalBuffer} (h : Inv c r b)
    (params : List Nat) : Inv c r (handle_sgr b params) := by
  unfold handle_sgr
  split
  · exact inv_reset_attrs h
  · exact inv_handle_sgr_go params h

theorem inv_handle_mode_one {c r : Nat} {b : TerminalBuffer} (h : Inv c r b)
    (is_dec enable : Bool) (p : Nat) : Inv c r (handle_mode_one is_dec enable b p) := by
  unfold handle_mode_one
  split
  · split
    · exact inv_set_origin_mode h enable
    split
    · exact inv_set_auto_wrap h enable
    split
    · split
      · exact inv_switch_to_alternate h
      · exact inv_switch_to_main h
    split
    · split
      · exact inv_clear (inv_switch_to_alternate (inv_save_cursor h))
      · exact inv_restore_cursor (inv_switch_to_main h)
    exact h
  · split
    · exact inv_set_insert_mode h enable
    · exact h

theorem inv_handle_mode {c r : Nat} {b : TerminalBuffer} (h : Inv c r b)
    (inters params : List Nat) (enable : Bool) :
    Inv c r (handle_mode b inters params enable) := by
  unfold handle_mode
  dsimp only
  induction params generalizing b with
  | nil => exact h
  | cons p ps ih => exact ih (inv_handle_mode_one h _ _ p)

theorem inv_csi_dispatch {c r : Nat} {b : TerminalBuffer} (h : Inv c r b)
    (params inters : List Nat) (ch : Char) :
    Inv c r (csi_dispatch b params inters ch) := by
  unfold csi_dispatch
  by_cases h1 : ch = 'A'
  · rw [if_pos h1]
    exact inv_move_cursor h _ _
  rw [if_neg h1]
  by_cases h2 : ch = 'B'
  · rw [if_pos h2]
    exact inv_move_cursor h _ _
  rw [if_neg h2]
  by_cases h3 : ch = 'C'
  · rw [if_pos h3]
    exact inv_move_cursor h _ _
  rw [if_neg h3]
  by_cases h4 : ch = 'D'
  · rw [if_pos h4]
    exact inv_move_cursor h _ _
  rw [if_neg h4]
  by_cases h5 : ch = 'E'
  · rw [if_pos h5]
    exact inv_set_cursor (inv_move_cursor h _ _) _ _
  rw [if_neg h5]
  by_cases h6 : ch = 'F'
  · rw [if_pos h6]
    exact inv_set_cursor (inv_move_cursor h _ _) _ _
  rw [if_neg h6]
  by_cases h7 : ch = 'G'
  · rw [if_pos h7]
    exact inv_set_cursor h _ _
  rw [if_neg h7]
  by_cases h8 : ch = 'H' ∨ ch = 'f'
  · rw [if_pos h8]
    exact inv_set_cursor h _ _
  rw [if_neg h8]
  by_cases h9 : ch = 'J'
  · rw [if_pos h9]
    split
    · exact inv_clear_to_end h
    split
    · exact inv_clear_to_start h
    split
    · exact inv_clear h
    exact h
  rw [if_neg h9]
  by_cases h10 : ch = 'K'
  · rw [if_pos h10]
    split
    · exact inv_clear_line_to_end h
    split
    · exact inv_clear_line_to_start h
    split
    · exact inv_clear_line h
    exact h
  rw [if_neg h10]
  by_cases h11 : ch = 'L'
  · rw [if_pos h11]
    exact inv_insert_lines _ h
  rw [if_neg h11]
  by_cases h12 : ch = 'M'
  · rw [if_pos h12]
    exact inv_delete_lines _ h
  rw [if_neg h12]
  by_cases h13 : ch = 'P'
  · rw [if_pos h13]
    exact inv_delete_chars h _
  rw [if_neg h13]
  by_cases h14 : ch = 'S'
  · rw [if_pos h14]
    exact inv_scroll_up _ h
  rw [if_neg h14]
  by_cases h15 : ch = 'T'
  · rw [if_pos h15]
    exact inv_scroll_down _ h
  rw [if_neg h15]
  by_cases h16 : ch = 'X'
  · rw [if_pos h16]
    exact inv_erase_chars h _
  rw [if_neg h16]
  by_cases h17 : ch = '@'
  · rw [if_pos h17]
    exact inv_insert_blank h _
  rw [if_neg h17]
  by_cases h18 : ch = 'd'
  · rw [if_pos h18]
    exact inv_set_cursor h _ _
  rw [if_neg h18]
  by_cases h19 : ch = 'm'
  · rw [if_pos h19]
    exact inv_handle_sgr h params
  rw [if_neg h19]
  by_cases h20 : ch = 'r'
  · rw [if_pos h20]
    exact inv_set_scroll_region h _ _
  rw [if_neg h20]
  by_cases h21 : ch = 's'
  · rw [if_pos h21]
    exact inv_save_cursor h
  rw [if_neg h21]
  by_cases h22 : ch = 'u'
  · rw [if_pos h22]
    exact inv_restore_cursor h
  rw [if_neg h22]
  by_cases h23 : ch = 'h'
  · rw [if_pos h23]
    exact inv_handle_mode h _ _ _
  rw [if_neg h23]
  by_cases h24 : ch = 'l'
  · rw [if_pos h24]
    exact inv_handle_mode h _ _ _
  rw [if_neg h24]
  exact h

theorem inv_esc_dispatch {c r : Nat} {b : TerminalBuffer} (h : Inv c r b)
    (inters : List Nat) (byte : Nat) : Inv c r (esc_dispatch b inters byte) := by
  unfold esc_dispatch
  split
  · split
    · exact inv_save_cursor h
    split
    · exact inv_restore_cursor h
    split
    · exact inv_scroll_up 1 h
    split
    · exact inv_scroll_down 1 h
    split
    · exact inv_set_cursor (inv_reset_attrs (inv_clear h)) 0 0
    exact h
  · exact h

theorem inv_executeCtl {c r : Nat} {b : TerminalBuffer} (h : Inv c r b)
    (byte : Nat) : Inv c r (executeCtl b byte) := by
  unfold executeCtl
  split
  · exact h
  split
  · split
    · exact inv_move_cursor h _ _
    · exact h
  split
  · exact inv_write_char h _
  split
  · exact inv_write_char h _
  split
  · exact inv_write_char h _
  exact h

theorem inv_step {c r : Nat} {m : TermMachine} (h : Inv c r m.buffer) (byte : Nat) :
    Inv c r (step m byte).buffer := by
  unfold step
  dsimp only
  split
  · split
    · exact h
    split
    · exact inv_executeCtl h byte
    exact inv_write_char h _
  · split
    · exact h
    split
    · exact h
    exact inv_esc_dispatch h [] byte
  · split
    · exact h
    split
    · exact h
    split
    · exact h
    split
    · exact h
    split
    · exact inv_executeCtl h byte
    split
    · exact inv_csi_dispatch h _ _ _
    exact h
  · split
    · exact h
    split
    · exact h
    exact h

theorem inv_process {c r : Nat} (data : List Nat) :
    ∀ {m : TermMachine}, Inv c r m.buffer → Inv c r (process m data).buffer := by
  induction data with
  | nil => intro m h; exact h
  | cons byte rest ih => intro m h; exact ih (inv_step h byte)

theorem inv_new (cols rows sb : Nat) (hc : 1 ≤ cols) (hr : 1 ≤ rows) :
    Inv cols rows (TerminalBuffer.new cols rows sb) := by
  refine ⟨hc, hr, rfl, rfl, gridShape_create_empty cols rows, Nat.zero_le _, hr,
    Nat.zero_le _, hr, Nat.zero_le _, ?_, ?_, ?_, ?_⟩
  · show rows - 1 < rows
    omega
  · intro g hg
    cases hg
  · intro x y hxy
    cases hxy
  · exact Nat.zero_le _

end TabSsh

namespace TabSsh

open TerminalBuffer

/-! ## Claim theorems -/

/-- C3: chunk-split equivalence (resumability). For every byte sequence split
`a ++ b`, `process a` then `process b` leaves the terminal machine (parser
state and buffer: grid, cursor, scrollback, modes, pen) in exactly the same
state as one `process (a ++ b)` call — `process` is a left fold of the
per-byte step over state persisted in the machine. -/
theorem C3_process_chunk_split (m : TermMachine) (a b : List Nat) :
    process m (a ++ b) = process (process m a) b := by
  unfold process
  exact List.foldl_append step m a b

/-- C1 counterexample: on a fresh 2×2 buffer, processing the two printable
bytes "ab" leaves the cursor at x = 2 = cols (the deferred-wrap column), so
`0 ≤ x < cols` does NOT hold at this observable point. -/
theorem C1_counterexample :
    (process (TermMachine.new 2 2 10) [0x61, 0x62]).buffer.cursor_position = (2, 0) ∧
    (process (TermMachine.new 2 2 10) [0x61, 0x62]).buffer.size.cols = 2 ∧
    ¬ (process (TermMachine.new 2 2 10) [0x61, 0x62]).buffer.cursor_position.1 < 2 := by
  refine ⟨by decide, by decide, by decide⟩

/-- C1 (amended): for every byte stream processed on a fresh buffer with
`cols, rows ≥ 1`, the cursor satisfies `0 ≤ x ≤ cols` and `0 ≤ y < rows`
(`x = cols` occurs transiently after a write in the last column — the
deferred-wrap state; all other commands clamp or wrap/scroll). -/
theorem C1_cursor_bounds (cols rows sb : Nat) (hc : 1 ≤ cols) (hr : 1 ≤ rows)
    (data : List Nat) :
    (process (TermMachine.new cols rows sb) data).buffer.cursor_x ≤ cols ∧
    (process (TermMachine.new cols rows sb) data).buffer.cursor_y < rows := by
  have h := inv_process (c := cols) (r := rows) data
    (m := TermMachine.new cols rows sb) (inv_new cols rows sb hc hr)
  exact ⟨h.cx, h.cy⟩

theorem C1_cursor_bounds_witness :
    (process (TermMachine.new 2 2 10) [0x61]).buffer.cursor_x ≤ 2 ∧
    (process (TermMachine.new 2 2 10) [0x61]).buffer.cursor_y < 2 :=
  C1_cursor_bounds 2 2 10 (by decide) (by decide) [0x61]

/-- C2: grid shape is never corrupted. For every byte sequence fed to
`process` on a fresh buffer with `cols, rows ≥ 1`, the screen consists of
exactly `rows` rows of exactly `cols` cells, matching `size()`. -/
theorem C2_grid_shape (cols rows sb : Nat) (hc : 1 ≤ cols) (hr : 1 ≤ rows)
    (data : List Nat) :
    (process (TermMachine.new cols rows sb) data).buffer.size = ⟨cols, rows⟩ ∧
    (process (TermMachine.new cols rows sb) data).buffer.screen.length = rows ∧
    ∀ row ∈ (process (TermMachine.new cols rows sb) data).buffer.screen,
      row.length = cols := by
  have h := inv_process (c := cols) (r := rows) data
    (m := TermMachine.new cols rows sb) (inv_new cols rows sb hc hr)
  refine ⟨?_, h.shape.1, ?_⟩
  · have h1 := h.scols
    have h2 := h.srows
    cases hsz : (process (TermMachine.new cols rows sb) data).buffer.size
    rw [hsz] at h1 h2
    simp at h1 h2
    rw [h1, h2]
  · intro row hrow
    obtain ⟨n, hn⟩ := List.mem_iff_get?.mp hrow
    exact h.shape.2 n row hn

theorem C2_grid_shape_witness :
    (process (TermMachine.new 2 2 10) [0x61]).buffer.size = ⟨2, 2⟩ ∧
    (process (TermMachine.new 2 2 10) [0x61]).buffer.screen.length = 2 ∧
    ∀ row ∈ (process (TermMachine.new 2 2 10) [0x61]).buffer.screen,
      row.length = 2 :=
  C2_grid_shape 2 2 10 (by decide) (by decide) [0x61]

/-- C10: `resize` never touches the scrollback — the scrollback list (its
length and every row, hence every `get_scrollback_row`) is exactly what it
was before the call, for every requested `cols` and every `rows ≥ 1` (a
`rows = 0` request underflows `scroll_bottom` in the source — see C5). -/
theorem C10_resize_preserves_scrollback (b : TerminalBuffer) (cols rows : Nat)
    (hr : 1 ≤ rows) :
    (b.resize cols rows).scrollback = b.scrollback ∧
    (b.resize cols rows).scrollback_len = b.scrollback_len ∧
    ∀ i, (b.resize cols rows).get_scrollback_row i = b.get_scrollback_row i := by
  refine ⟨rfl, rfl, fun i => rfl⟩

theorem C10_resize_preserves_scrollback_witness :
    ((TerminalBuffer.new 4 3 10).resize 2 2).scrollback =
        (TerminalBuffer.new 4 3 10).scrollback ∧
    ((TerminalBuffer.new 4 3 10).resize 2 2).scrollback_len =
        (TerminalBuffer.new 4 3 10).scrollback_len ∧
    ∀ i, ((TerminalBuffer.new 4 3 10).resize 2 2).get_scrollback_row i =
        (TerminalBuffer.new 4 3 10).get_scrollback_row i :=
  C10_resize_preserves_scrollback (TerminalBuffer.new 4 3 10) 2 2 (by decide)

/-- C5: the claim "`resize` clamps degenerate sizes to ≥ 1" fails on the
code: `resize(0, 1)` completes and leaves `size().cols = 0` (no clamping
exists in `TerminalBuffer::resize`; the `.max(1)` clamp lives in the UI
caller). A `rows = 0` request additionally underflows the plain `usize`
subtraction `new_rows - 1` for `scroll_bottom` (a debug-build panic). -/
theorem C5_resize_no_clamp :
    ((TerminalBuffer.new 2 2 10).resize 0 1).size.cols = 0 ∧
    ((TerminalBuffer.new 2 2 10).resize 5 1).size = ⟨5, 1⟩ := by
  refine ⟨by decide, by decide⟩

end TabSsh

namespace TabSsh

open TerminalBuffer

/-- C5 (amended): `resize` is total for `rows ≥ 1` and applies the requested
size exactly — no clamping happens in the buffer (`cols = 0` is kept as 0;
the `.max(1)` clamp lives in the UI caller); the cursor is clamped into the
new bounds with saturating subtraction and `scroll_bottom` is reset to
`rows - 1`. -/
theorem C5_resize_exact (b : TerminalBuffer) (cols rows : Nat) (hr : 1 ≤ rows) :
    (b.resize cols rows).size = ⟨cols, rows⟩ ∧
    (b.resize cols rows).scroll_bottom = rows - 1 ∧
    (b.resize cols rows).cursor_x = min b.cursor_x (cols - 1) ∧
    (b.resize cols rows).cursor_y = min b.cursor_y (rows - 1) :=
  ⟨rfl, rfl, rfl, rfl⟩

theorem C5_resize_exact_witness :
    ((TerminalBuffer.new 2 2 10).resize 0 1).size = ⟨0, 1⟩ ∧
    ((TerminalBuffer.new 2 2 10).resize 0 1).scroll_bottom = 0 ∧
    ((TerminalBuffer.new 2 2 10).resize 0 1).cursor_x = min 0 (0 - 1) ∧
    ((TerminalBuffer.new 2 2 10).resize 0 1).cursor_y = min 0 (1 - 1) :=
  C5_resize_exact (TerminalBuffer.new 2 2 10) 0 1 (by decide)

/-- C4: scrollback is bounded with FIFO eviction.
(1) After processing any byte stream on a fresh buffer,
`scrollback_len() ≤ max_scrollback`.
(2) When an eviction is needed (a row is pushed while the scrollback is at
capacity), the evicted row is the oldest (the head): the new scrollback is
`tail ++ [pushed row]`.
(3) With the default full-screen region (`scroll_top = 0`), a newline at or
below `scroll_bottom` while strictly below capacity grows `scrollback_len()`
by exactly 1. -/
theorem C4_scrollback_bounded_fifo :
    (∀ (cols rows sb : Nat), 1 ≤ cols → 1 ≤ rows → ∀ (data : List Nat),
      (process (TermMachine.new cols rows sb) data).buffer.scrollback_len ≤
        (process (TermMachine.new cols rows sb) data).buffer.max_scrollback) ∧
    (∀ (b : TerminalBuffer) (row : Row), b.scroll_top = 0 →
      b.screen.get? 0 = some row → b.scrollback.length = b.max_scrollback →
      1 ≤ b.max_scrollback →
      (scroll_up_once b).scrollback = b.scrollback.tail ++ [row]) ∧
    (∀ b : TerminalBuffer, b.scroll_top = 0 → b.cursor_y ≥ b.scroll_bottom →
      b.screen.get? 0 ≠ none → b.scrollback.length < b.max_scrollback →
      (b.write_char '\n').scrollback_len = b.scrollback_len + 1) := by
  refine ⟨?_, ?_, ?_⟩
  · intro cols rows sb hc hr data
    exact (inv_process (c := cols) (r := rows) data
      (m := TermMachine.new cols rows sb) (inv_new cols rows sb hc hr)).sble
  · intro b row hst hq hlen hpos
    rw [scroll_up_once_eq]
    show (if b.scroll_top = 0 then _ else b.scrollback) = _
    rw [if_pos hst, hq]
    show evictOldest b.max_scrollback (b.scrollback ++ [row]) = _
    have hl : (b.scrollback ++ [row]).length = b.max_scrollback + 1 := by
      simp [hlen]
    rw [evictOldest_of_succ _ _ hl]
    cases hsb : b.scrollback with
    | nil =>
      rw [hsb] at hlen
      simp at hlen
      omega
    | cons x xs => simp
  · intro b hst hy hq hcap
    show (b.newline).scrollback_len = _
    unfold newline
    rw [if_pos hy]
    show (scroll_up (scroll_up_once b) 0).scrollback_len = _
    unfold scroll_up
    cases hq2 : b.screen.get? 0 with
    | none => exact absurd hq2 hq
    | some row =>
      unfold scrollback_len
      rw [scroll_up_once_eq]
      show (if b.scroll_top = 0 then _ else b.scrollback).length = _
      rw [if_pos hst, hq2]
      show (evictOldest b.max_scrollback (b.scrollback ++ [row])).length = _
      rw [evictOldest_of_le _ _ (by simp; omega)]
      simp

theorem C4_scrollback_bounded_fifo_witness :
    ((process (TermMachine.new 1 2 1) [0x0a, 0x0a, 0x0a]).buffer.scrollback_len ≤
      (process (TermMachine.new 1 2 1) [0x0a, 0x0a, 0x0a]).buffer.max_scrollback) ∧
    ((scroll_up_once { TerminalBuffer.new 1 2 1 with
        scrollback := [List.replicate 1 Cell.default] }).scrollback =
      ({ TerminalBuffer.new 1 2 1 with
        scrollback := [List.replicate 1 Cell.default] } :
          TerminalBuffer).scrollback.tail ++ [List.replicate 1 Cell.default]) ∧
    (((TerminalBuffer.new 1 1 1).write_char '\n').scrollback_len =
      (TerminalBuffer.new 1 1 1).scrollback_len + 1) := by
  refine ⟨C4_scrollback_bounded_fifo.1 1 2 1 (by decide) (by decide) _,
    C4_scrollback_bounded_fifo.2.1 _ (List.replicate 1 Cell.default)
      (by decide) (by decide) (by decide) (by decide),
    C4_scrollback_bounded_fifo.2.2 (TerminalBuffer.new 1 1 1) (by decide) (by decide)
      (by decide) (by decide)⟩

end TabSsh

namespace TabSsh

open TerminalBuffer

theorem process_cons (m : TermMachine) (x : Nat) (xs : List Nat) :
    process m (x :: xs) = process (step m x) xs := rfl

theorem process_nil (m : TermMachine) : process m [] = m := rfl

theorem step_esc (b : TerminalBuffer) :
    step ⟨FsmData.initial, b⟩ 0x1b = ⟨⟨.Escape, [], none, []⟩, b⟩ := rfl

theorem step_lbracket (b : TerminalBuffer) :
    step ⟨⟨.Escape, [], none, []⟩, b⟩ 0x5b = ⟨⟨.Csi, [], none, []⟩, b⟩ := rfl

theorem step_question (b : TerminalBuffer) :
    step ⟨⟨.Csi, [], none, []⟩, b⟩ 0x3f = ⟨⟨.Csi, [], none, [0x3f]⟩, b⟩ := rfl

theorem step_d1 (b : TerminalBuffer) :
    step ⟨⟨.Csi, [], none, [0x3f]⟩, b⟩ 0x31 = ⟨⟨.Csi, [], some 1, [0x3f]⟩, b⟩ := rfl

theorem step_d10 (b : TerminalBuffer) :
    step ⟨⟨.Csi, [], some 1, [0x3f]⟩, b⟩ 0x30 = ⟨⟨.Csi, [], some 10, [0x3f]⟩, b⟩ := rfl

theorem step_d104 (b : TerminalBuffer) :
    step ⟨⟨.Csi, [], some 10, [0x3f]⟩, b⟩ 0x34 = ⟨⟨.Csi, [], some 104, [0x3f]⟩, b⟩ := rfl

theorem step_d1049 (b : TerminalBuffer) :
    step ⟨⟨.Csi, [], some 104, [0x3f]⟩, b⟩ 0x39 =
      ⟨⟨.Csi, [], some 1049, [0x3f]⟩, b⟩ := rfl

theorem step_final_h (b : TerminalBuffer) :
    step ⟨⟨.Csi, [], some 1049, [0x3f]⟩, b⟩ 0x68 =
      ⟨FsmData.initial, ((b.save_cursor).switch_to_alternate).clear⟩ := rfl

theorem step_final_l (b : TerminalBuffer) :
    step ⟨⟨.Csi, [], some 1049, [0x3f]⟩, b⟩ 0x6c =
      ⟨FsmData.initial, (b.switch_to_main).restore_cursor⟩ := rfl

/-- C6: alternate-screen round-trip law. Starting on the primary screen
(`alternate_screen = none`, parser in Ground state), processing the bytes of
`ESC[?1049h` immediately followed by `ESC[?1049l` restores exactly the
primary grid and the cursor position present before the first sequence. -/
theorem C6_alt_screen_round_trip (b : TerminalBuffer)
    (h : b.alternate_screen = none) :
    (process ⟨FsmData.initial, b⟩
        [0x1b, 0x5b, 0x3f, 0x31, 0x30, 0x34, 0x39, 0x68,
         0x1b, 0x5b, 0x3f, 0x31, 0x30, 0x34, 0x39, 0x6c]).buffer.screen =
      b.screen ∧
    (process ⟨FsmData.initial, b⟩
        [0x1b, 0x5b, 0x3f, 0x31, 0x30, 0x34, 0x39, 0x68,
         0x1b, 0x5b, 0x3f, 0x31, 0x30, 0x34, 0x39, 0x6c]).buffer.cursor_position =
      b.cursor_position := by
  have h2 : (b.save_cursor).switch_to_alternate =
      { b.save_cursor with
        alternate_screen := some b.screen,
        alternate_cursor := some (b.cursor_x, b.cursor_y),
        screen := create_empty_screen b.size.cols b.size.rows,
        cursor_x := 0, cursor_y := 0 } := by
    unfold switch_to_alternate
    have h' : (b.save_cursor).alternate_screen = none := h
    rw [if_pos h']
    rfl
  rw [process_cons, step_esc, process_cons, step_lbracket, process_cons,
    step_question, process_cons, step_d1, process_cons, step_d10, process_cons,
    step_d104, process_cons, step_d1049, process_cons, step_final_h,
    process_cons, step_esc, process_cons, step_lbracket, process_cons,
    step_question, process_cons, step_d1, process_cons, step_d10, process_cons,
    step_d104, process_cons, step_d1049, process_cons, step_final_l, process_nil,
    h2]
  exact ⟨rfl, rfl⟩

theorem C6_alt_screen_round_trip_witness :
    (process ⟨FsmData.initial, TerminalBuffer.new 2 2 5⟩
        [0x1b, 0x5b, 0x3f, 0x31, 0x30, 0x34, 0x39, 0x68,
         0x1b, 0x5b, 0x3f, 0x31, 0x30, 0x34, 0x39, 0x6c]).buffer.screen =
      (TerminalBuffer.new 2 2 5).screen ∧
    (process ⟨FsmData.initial, TerminalBuffer.new 2 2 5⟩
        [0x1b, 0x5b, 0x3f, 0x31, 0x30, 0x34, 0x39, 0x68,
         0x1b, 0x5b, 0x3f, 0x31, 0x30, 0x34, 0x39, 0x6c]).buffer.cursor_position =
      (TerminalBuffer.new 2 2 5).cursor_position :=
  C6_alt_screen_round_trip (TerminalBuffer.new 2 2 5) rfl

end TabSsh

namespace TabSsh

open TerminalBuffer

theorem write_char_newline (b : TerminalBuffer) : b.write_char '\n' = b.newline := rfl

/-- C8 counterexample: with rows = 3 and scroll region [0, 1], place the
cursor at y = 2 (strictly below the region, `y > scroll_bottom`, in
particular `y ≠ scroll_bottom`) with an 'x' in row 1; a newline then
scrolls the region (row 0 becomes 'x') and leaves the cursor at y = 2 —
the claim demands `cursor.y + 1 = 3` and no scroll. -/
theorem C8_counterexample :
    (let b8 := ((((TerminalBuffer.new 1 3 10).set_cursor 0 1).write_char
        'x').set_scroll_region 0 1).set_cursor 0 2
     b8.cursor_y = 2 ∧ b8.scroll_bottom = 1 ∧
     (b8.write_char '\n').cursor_y = 2 ∧
     ¬ (b8.write_char '\n').cursor_y = b8.cursor_y + 1 ∧
     ((b8.write_char '\n').get_cell 0 0).map Cell.character = some 'x' ∧
     (b8.get_cell 0 0).map Cell.character = some ' ') := by
  decide

/-- C8 (amended): `newline()` (as triggered by `'\n'`) scrolls the scroll
region up by one line if and only if `cursor.y ≥ scroll_bottom` (leaving the
cursor in place), and increments `cursor.y` by exactly 1 (leaving the grid
unchanged) only when `cursor.y < scroll_bottom` — the source compares with
`>=`, not `==`, so a cursor strictly below the region scrolls instead of
moving down. -/
theorem C8_newline_semantics (b : TerminalBuffer)
    (hst : b.scroll_top ≤ b.scroll_bottom)
    (hbl : b.scroll_bottom < b.screen.length) :
    (b.cursor_y < b.scroll_bottom →
      (b.write_char '\n').cursor_y = b.cursor_y + 1 ∧
      (b.write_char '\n').screen = b.screen) ∧
    (b.cursor_y ≥ b.scroll_bottom →
      (b.write_char '\n').cursor_y = b.cursor_y ∧
      (∀ y, b.scroll_top ≤ y → y < b.scroll_bottom →
        (b.write_char '\n').get_row y = b.get_row (y + 1)) ∧
      (b.write_char '\n').get_row b.scroll_bottom =
        some (List.replicate b.size.cols Cell.default) ∧
      (∀ y, y < b.scroll_top ∨ b.scroll_bottom < y →
        (b.write_char '\n').get_row y = b.get_row y)) := by
  rw [write_char_newline]
  unfold newline
  constructor
  · intro hlt
    rw [if_neg (by omega)]
    exact ⟨rfl, rfl⟩
  · intro hge
    rw [if_pos hge]
    have hup : b.scroll_up 1 = scroll_up_once b := rfl
    rw [hup, scroll_up_once_eq]
    refine ⟨rfl, ?_, ?_, ?_⟩
    · intro y hy1 hy2
      show (if b.scroll_bottom <
          (copyUpAux b.screen b.scroll_top (b.scroll_bottom - b.scroll_top)).length
        then _ else _ : List Row).get? y = b.screen.get? (y + 1)
      rw [length_copyUpAux, if_pos hbl, get?_set, if_neg (by omega),
        get?_copyUpAux, if_pos ⟨hy1, by omega, by omega⟩]
    · show (if b.scroll_bottom <
          (copyUpAux b.screen b.scroll_top (b.scroll_bottom - b.scroll_top)).length
        then _ else _ : List Row).get? b.scroll_bottom = _
      rw [length_copyUpAux, if_pos hbl, get?_set,
        if_pos ⟨rfl, by rw [length_copyUpAux]; exact hbl⟩]
    · intro y hy
      show (if b.scroll_bottom <
          (copyUpAux b.screen b.scroll_top (b.scroll_bottom - b.scroll_top)).length
        then _ else _ : List Row).get? y = b.screen.get? y
      rw [length_copyUpAux, if_pos hbl, get?_set, if_neg (by omega),
        get?_copyUpAux, if_neg (by omega)]

theorem C8_newline_semantics_witness :
    ((TerminalBuffer.new 1 3 10).cursor_y < (TerminalBuffer.new 1 3 10).scroll_bottom →
      (((TerminalBuffer.new 1 3 10).write_char '\n').cursor_y =
        (TerminalBuffer.new 1 3 10).cursor_y + 1 ∧
      ((TerminalBuffer.new 1 3 10).write_char '\n').screen =
        (TerminalBuffer.new 1 3 10).screen)) ∧
    ((TerminalBuffer.new 1 3 10).cursor_y ≥ (TerminalBuffer.new 1 3 10).scroll_bottom →
      (((TerminalBuffer.new 1 3 10).write_char '\n').cursor_y =
        (TerminalBuffer.new 1 3 10).cursor_y ∧
      (∀ y, (TerminalBuffer.new 1 3 10).scroll_top ≤ y →
        y < (TerminalBuffer.new 1 3 10).scroll_bottom →
        ((TerminalBuffer.new 1 3 10).write_char '\n').get_row y =
          (TerminalBuffer.new 1 3 10).get_row (y + 1)) ∧
      ((TerminalBuffer.new 1 3 10).write_char '\n').get_row
          (TerminalBuffer.new 1 3 10).scroll_bottom =
        some (List.replicate (TerminalBuffer.new 1 3 10).size.cols Cell.default) ∧
      (∀ y, y < (TerminalBuffer.new 1 3 10).scroll_top ∨
          (TerminalBuffer.new 1 3 10).scroll_bottom < y →
        ((TerminalBuffer.new 1 3 10).write_char '\n').get_row y =
          (TerminalBuffer.new 1 3 10).get_row y))) :=
  C8_newline_semantics (TerminalBuffer.new 1 3 10) (by decide) (by decide)

end TabSsh

namespace TabSsh

open TerminalBuffer

theorem erase_insert_get?_outside (s : List Row) (ke ki : Nat) (v : Row)
    (hk : ki ≤ ke) (hke : ke < s.length) (y : Nat)
    (hy : y < ki ∨ ke < y) :
    ((s.eraseIdx ke).insertIdx ki v).get? y = s.get? y := by
  have hel : (s.eraseIdx ke).length = s.length - 1 := length_eraseIdx_lt s ke hke
  rcases hy with hy | hy
  · rw [get?_insertIdx_of_lt _ _ _ _ hy, get?_eraseIdx_of_lt _ _ _ (by omega)]
  · rw [get?_insertIdx_of_gt _ _ _ _ (by omega) (by omega),
      get?_eraseIdx_of_ge _ _ _ (by omega), if_pos hke]
    congr 1
    omega

theorem C9_insert_noop (n : Nat) : ∀ (b : TerminalBuffer),
    b.scroll_bottom < b.cursor_y → b.insert_lines n = b := by
  induction n with
  | zero => intro b h; rfl
  | succ n ih =>
    intro b h
    rw [insert_lines]
    rw [if_neg (by omega)]
    exact ih b h

theorem C9_delete_noop (n : Nat) : ∀ (b : TerminalBuffer),
    b.scroll_bottom < b.cursor_y → b.delete_lines n = b := by
  induction n with
  | zero => intro b h; rfl
  | succ n ih =>
    intro b h
    rw [delete_lines]
    rw [if_neg (by omega)]
    exact ih b h

theorem C9_insert_frame (n : Nat) : ∀ (b : TerminalBuffer),
    b.scroll_bottom < b.screen.length →
    ∀ y, (y < b.cursor_y ∨ b.scroll_bottom < y) →
      (b.insert_lines n).get_row y = b.get_row y := by
  induction n with
  | zero => intro b hbl y hy; rfl
  | succ n ih =>
    intro b hbl y hy
    rw [insert_lines]
    split
    · rename_i hcy
      have hlen : ((b.screen.eraseIdx b.scroll_bottom).insertIdx b.cursor_y
          (blankRow b.size.cols)).length = b.screen.length := by
        rw [List.length_insertIdx _ _
          (by rw [length_eraseIdx_lt _ _ hbl]; omega),
          length_eraseIdx_lt _ _ hbl]
        omega
      rw [ih { b with screen :=
            ((b.screen.eraseIdx b.scroll_bottom).insertIdx b.cursor_y (blankRow b.size.cols)) }
          (show b.scroll_bottom < ((b.screen.eraseIdx b.scroll_bottom).insertIdx
            b.cursor_y (blankRow b.size.cols)).length by rw [hlen]; exact hbl)
          y hy]
      show ((b.screen.eraseIdx b.scroll_bottom).insertIdx b.cursor_y
          (blankRow b.size.cols)).get? y = b.screen.get? y
      exact erase_insert_get?_outside b.screen _ _ _ hcy hbl y hy
    · exact ih b hbl y hy

theorem C9_delete_frame (n : Nat) : ∀ (b : TerminalBuffer),
    b.cursor_y ≤ b.scroll_bottom → b.scroll_bottom < b.screen.length →
    ∀ y, (y < b.cursor_y ∨ b.scroll_bottom < y) →
      (b.delete_lines n).get_row y = b.get_row y := by
  induction n with
  | zero => intro b hcb hbl y hy; rfl
  | succ n ih =>
    intro b hcb hbl y hy
    rw [delete_lines]
    rw [if_pos hcb]
    have hcyl : b.cursor_y < b.screen.length := by omega
    have hlen : ((b.screen.eraseIdx b.cursor_y).insertIdx b.scroll_bottom
        (blankRow b.size.cols)).length = b.screen.length := by
      rw [List.length_insertIdx _ _
        (by rw [length_eraseIdx_lt _ _ hcyl]; omega),
        length_eraseIdx_lt _ _ hcyl]
      omega
    rw [ih { b with screen :=
          ((b.screen.eraseIdx b.cursor_y).insertIdx b.scroll_bottom (blankRow b.size.cols)) } hcb
        (show b.scroll_bottom < ((b.screen.eraseIdx b.cursor_y).insertIdx
          b.scroll_bottom (blankRow b.size.cols)).length by rw [hlen]; exact hbl)
        y hy]
    show ((b.screen.eraseIdx b.cursor_y).insertIdx b.scroll_bottom
        (blankRow b.size.cols)).get? y = b.screen.get? y
    have hel : (b.screen.eraseIdx b.cursor_y).length = b.screen.length - 1 :=
      length_eraseIdx_lt _ _ hcyl
    rcases hy with hy | hy
    · rw [get?_insertIdx_of_lt _ _ _ _ (by omega),
        get?_eraseIdx_of_lt _ _ _ hy]
    · rw [get?_insertIdx_of_gt _ _ _ _ (by omega) (by omega),
        get?_eraseIdx_of_ge _ _ _ (by omega), if_pos hcyl]
      congr 1
      omega

/-- C9 counterexample: 1×4 buffer, 'a' in row 0, scroll region [2, 3],
cursor at (0, 0) — outside the region (`cursor_y < scroll_top`). The claim
demands that `insert_lines 1` leave the grid unchanged; instead it removes
row 3 and inserts a blank row at row 0, shifting the 'a' into row 1 (a row
outside the scroll region is modified). -/
theorem C9_counterexample :
    (let b9 := (((TerminalBuffer.new 1 4 10).write_char 'a').set_scroll_region
        2 3).set_cursor 0 0
     b9.scroll_top = 2 ∧ b9.scroll_bottom = 3 ∧ b9.cursor_y = 0 ∧
     ((b9.insert_lines 1).get_cell 0 1).map Cell.character = some 'a' ∧
     (b9.get_cell 0 1).map Cell.character = some ' ' ∧
     ¬ (b9.insert_lines 1).get_row 1 = b9.get_row 1) := by
  decide

/-- C9 (amended): `insert_lines(n)` / `delete_lines(n)` operate whenever
`cursor.y ≤ scroll_bottom` — `scroll_top` is NOT consulted, so a cursor above
the region still shifts rows. The shift is confined to
`[cursor.y, scroll_bottom]`: when `cursor.y > scroll_bottom` the whole grid
is unchanged, and in every case rows with index `< cursor.y` or
`> scroll_bottom` are untouched. -/
theorem C9_lines_confinement (b : TerminalBuffer) (n : Nat)
    (hcb : b.cursor_y ≤ b.scroll_bottom ∨ b.scroll_bottom < b.cursor_y)
    (hbl : b.scroll_bottom < b.screen.length) :
    (b.scroll_bottom < b.cursor_y →
      b.insert_lines n = b ∧ b.delete_lines n = b) ∧
    (∀ y, y < b.cursor_y ∨ b.scroll_bottom < y →
      (b.insert_lines n).get_row y = b.get_row y) ∧
    (b.cursor_y ≤ b.scroll_bottom →
      ∀ y, y < b.cursor_y ∨ b.scroll_bottom < y →
        (b.delete_lines n).get_row y = b.get_row y) := by
  refine ⟨fun h => ⟨C9_insert_noop n b h, C9_delete_noop n b h⟩,
    C9_insert_frame n b hbl, fun h => C9_delete_frame n b h hbl⟩

theorem C9_lines_confinement_witness :
    (((TerminalBuffer.new 1 4 10).set_scroll_region 2 3).scroll_bottom <
        ((TerminalBuffer.new 1 4 10).set_scroll_region 2 3).cursor_y →
      ((TerminalBuffer.new 1 4 10).set_scroll_region 2 3).insert_lines 1 =
          (TerminalBuffer.new 1 4 10).set_scroll_region 2 3 ∧
      ((TerminalBuffer.new 1 4 10).set_scroll_region 2 3).delete_lines 1 =
          (TerminalBuffer.new 1 4 10).set_scroll_region 2 3) ∧
    (∀ y, y < ((TerminalBuffer.new 1 4 10).set_scroll_region 2 3).cursor_y ∨
        ((TerminalBuffer.new 1 4 10).set_scroll_region 2 3).scroll_bottom < y →
      (((TerminalBuffer.new 1 4 10).set_scroll_region 2 3).insert_lines 1).get_row y =
        ((TerminalBuffer.new 1 4 10).set_scroll_region 2 3).get_row y) ∧
    (((TerminalBuffer.new 1 4 10).set_scroll_region 2 3).cursor_y ≤
        ((TerminalBuffer.new 1 4 10).set_scroll_region 2 3).scroll_bottom →
      ∀ y, y < ((TerminalBuffer.new 1 4 10).set_scroll_region 2 3).cursor_y ∨
          ((TerminalBuffer.new 1 4 10).set_scroll_region 2 3).scroll_bottom < y →
        (((TerminalBuffer.new 1 4 10).set_scroll_region 2 3).delete_lines 1).get_row y =
          ((TerminalBuffer.new 1 4 10).set_scroll_region 2 3).get_row y) :=
  C9_lines_confinement ((TerminalBuffer.new 1 4 10).set_scroll_region 2 3) 1
    (by decide) (by decide)

end TabSsh

namespace TabSsh

open TerminalBuffer

theorem get?_list_map {α β : Type} (f : α → β) (l : List α) (n : Nat) :
    (l.map f).get? n = (l.get? n).map f := by
  induction l generalizing n with
  | nil => simp
  | cons x xs ih =>
    cases n with
    | zero => rfl
    | succ n => simpa using ih n

theorem clear_cursor (b : TerminalBuffer) :
    b.clear.cursor_position = b.cursor_position := rfl

theorem clear_line_cursor (b : TerminalBuffer) :
    b.clear_line.cursor_position = b.cursor_position := by
  unfold clear_line
  split <;> rfl

theorem clear_line_to_end_cursor (b : TerminalBuffer) :
    b.clear_line_to_end.cursor_position = b.cursor_position := by
  unfold clear_line_to_end
  split <;> rfl

theorem clear_line_to_start_cursor (b : TerminalBuffer) :
    b.clear_line_to_start.cursor_position = b.cursor_position := by
  unfold clear_line_to_start
  split <;> rfl

theorem clear_to_end_cursor (b : TerminalBuffer) :
    b.clear_to_end.cursor_position = b.cursor_position := by
  unfold clear_to_end
  dsimp only
  exact clear_line_to_end_cursor b

theorem clear_to_start_cursor (b : TerminalBuffer) :
    b.clear_to_start.cursor_position = b.cursor_position := by
  unfold clear_to_start
  dsimp only
  exact clear_line_to_start_cursor { b with screen := clearRowsAux b.screen 0 b.cursor_y }

theorem clear_get_cell (b : TerminalBuffer) (x y : Nat) (hx : x < b.size.cols)
    (hy : y < b.size.rows) : b.clear.get_cell x y = some Cell.default := by
  unfold clear get_cell create_empty_screen
  show ((List.replicate b.size.rows (List.replicate b.size.cols Cell.default)).get?
      y).bind _ = _
  rw [get?_replicate, if_pos hy]
  show (List.replicate b.size.cols Cell.default).get? x = _
  rw [get?_replicate, if_pos hx]

theorem clear_line_get_cell (b : TerminalBuffer) (x : Nat) :
    b.clear_line.get_cell x b.cursor_y = (b.get_cell x b.cursor_y).map Cell.clearCell := by
  unfold clear_line get_cell
  cases hq : b.screen.get? b.cursor_y with
  | none =>
    show (b.screen.get? b.cursor_y).bind (fun row => row.get? x) =
      ((none : Option Row).bind (fun row => row.get? x)).map Cell.clearCell
    rw [hq]
    rfl
  | some row =>
    have hql : b.cursor_y < b.screen.length := (List.get?_eq_some.mp hq).1
    show ((b.screen.set b.cursor_y (row.map Cell.clearCell)).get? b.cursor_y).bind
        (fun row => row.get? x) = _
    rw [get?_set, if_pos ⟨rfl, hql⟩]
    show (row.map Cell.clearCell).get? x = _
    rw [get?_list_map]
    rfl

theorem clear_line_to_end_get_cell (b : TerminalBuffer) (x : Nat)
    (hx : b.cursor_x ≤ x) :
    b.clear_line_to_end.get_cell x b.cursor_y =
      (b.get_cell x b.cursor_y).map Cell.clearCell := by
  unfold clear_line_to_end get_cell
  cases hq : b.screen.get? b.cursor_y with
  | none =>
    show (b.screen.get? b.cursor_y).bind (fun row => row.get? x) =
      ((none : Option Row).bind (fun row => row.get? x)).map Cell.clearCell
    rw [hq]
    rfl
  | some row =>
    have hql : b.cursor_y < b.screen.length := (List.get?_eq_some.mp hq).1
    show ((b.screen.set b.cursor_y
        (clearCellsAux row b.cursor_x (row.length - b.cursor_x))).get?
          b.cursor_y).bind (fun row => row.get? x) = _
    rw [get?_set, if_pos ⟨rfl, hql⟩]
    show (clearCellsAux row b.cursor_x (row.length - b.cursor_x)).get? x = _
    rw [get?_clearCellsAux]
    split
    · rfl
    · rename_i hw
      rw [List.get?_eq_none.mpr (by omega)]
      show (none : Option Cell) = ((some row).bind (fun row => row.get? x)).map
        Cell.clearCell
      show (none : Option Cell) = (row.get? x).map Cell.clearCell
      rw [List.get?_eq_none.mpr (by omega)]
      rfl

theorem clear_line_to_start_get_cell (b : TerminalBuffer) (x : Nat)
    (hx : x ≤ b.cursor_x) :
    b.clear_line_to_start.get_cell x b.cursor_y =
      (b.get_cell x b.cursor_y).map Cell.clearCell := by
  unfold clear_line_to_start get_cell
  cases hq : b.screen.get? b.cursor_y with
  | none =>
    show (b.screen.get? b.cursor_y).bind (fun row => row.get? x) =
      ((none : Option Row).bind (fun row => row.get? x)).map Cell.clearCell
    rw [hq]
    rfl
  | some row =>
    have hql : b.cursor_y < b.screen.length := (List.get?_eq_some.mp hq).1
    show ((b.screen.set b.cursor_y
        (clearCellsAux row 0 (min b.cursor_x (row.length - 1) + 1))).get?
          b.cursor_y).bind (fun row => row.get? x) = _
    rw [get?_set, if_pos ⟨rfl, hql⟩]
    show (clearCellsAux row 0 (min b.cursor_x (row.length - 1) + 1)).get? x = _
    rw [get?_clearCellsAux]
    cases hrx : row.get? x with
    | none =>
      split
      · show (none : Option Cell).map Cell.clearCell = (row.get? x).map Cell.clearCell
        rw [hrx]
      · show (none : Option Cell) = (row.get? x).map Cell.clearCell
        rw [hrx]
        rfl
    | some cell =>
      have hxl : x < row.length := (List.get?_eq_some.mp hrx).1
      rw [if_pos ⟨Nat.zero_le x, by omega⟩]
      show Option.map Cell.clearCell (some cell) = (row.get? x).map Cell.clearCell
      rw [hrx]

theorem clear_line_to_end_screen_ne (b : TerminalBuffer) (y : Nat)
    (hy : y ≠ b.cursor_y) :
    b.clear_line_to_end.screen.get? y = b.screen.get? y := by
  unfold clear_line_to_end
  cases hq : b.screen.get? b.cursor_y with
  | none => rfl
  | some row =>
    show (b.screen.set b.cursor_y _).get? y = _
    rw [get?_set, if_neg (by intro hc; exact hy hc.1.symm)]

theorem clear_line_to_start_screen_ne (b : TerminalBuffer) (y : Nat)
    (hy : y ≠ b.cursor_y) :
    b.clear_line_to_start.screen.get? y = b.screen.get? y := by
  unfold clear_line_to_start
  cases hq : b.screen.get? b.cursor_y with
  | none => rfl
  | some row =>
    show (b.screen.set b.cursor_y _).get? y = _
    rw [get?_set, if_neg (by intro hc; exact hy hc.1.symm)]

end TabSsh

namespace TabSsh

open TerminalBuffer

theorem clear_line_to_end_cursor_y (b : TerminalBuffer) :
    b.clear_line_to_end.cursor_y = b.cursor_y :=
  congrArg Prod.snd (clear_line_to_end_cursor b)

theorem clear_line_to_end_size (b : TerminalBuffer) :
    b.clear_line_to_end.size = b.size := by
  unfold clear_line_to_end
  split <;> rfl

theorem clear_to_end_get_cell (b : TerminalBuffer)
    (hlen : b.screen.length = b.size.rows) (x y : Nat)
    (hy : b.cursor_y < y ∨ (y = b.cursor_y ∧ b.cursor_x ≤ x)) :
    b.clear_to_end.get_cell x y = (b.get_cell x y).map Cell.clearCell := by
  have hcy := clear_line_to_end_cursor_y b
  have hsz := clear_line_to_end_size b
  unfold clear_to_end
  dsimp only
  unfold get_cell
  show ((clearRowsAux b.clear_line_to_end.screen (b.clear_line_to_end.cursor_y + 1)
      (b.clear_line_to_end.size.rows - (b.clear_line_to_end.cursor_y + 1))).get?
        y).bind (fun row => row.get? x) = _
  rw [hcy, hsz, get?_clearRowsAux]
  rcases hy with hy | ⟨hyeq, hx⟩
  · by_cases hyr : y < b.size.rows
    · rw [if_pos ⟨by omega, by omega⟩,
        clear_line_to_end_screen_ne b y (by omega)]
      cases hqy : b.screen.get? y with
      | none => rfl
      | some row =>
        show ((row.map Cell.clearCell).get? x : Option Cell) =
          ((some row).bind (fun row => row.get? x)).map Cell.clearCell
        rw [get?_list_map]
        rfl
    · rw [if_neg (by omega), clear_line_to_end_screen_ne b y (by omega),
        List.get?_eq_none.mpr (by omega)]
      rfl
  · subst hyeq
    rw [if_neg (by omega)]
    exact clear_line_to_end_get_cell b x hx

theorem clear_to_start_get_cell (b : TerminalBuffer) (x y : Nat)
    (hy : y < b.cursor_y ∨ (y = b.cursor_y ∧ x ≤ b.cursor_x)) :
    b.clear_to_start.get_cell x y = (b.get_cell x y).map Cell.clearCell := by
  unfold clear_to_start
  dsimp only
  rcases hy with hy | ⟨hyeq, hx⟩
  · unfold get_cell
    rw [clear_line_to_start_screen_ne _ y (by show y ≠ b.cursor_y; omega)]
    show ((clearRowsAux b.screen 0 b.cursor_y).get? y).bind (fun row => row.get? x) = _
    rw [get?_clearRowsAux, if_pos ⟨Nat.zero_le y, by omega⟩]
    cases hqy : b.screen.get? y with
    | none => rfl
    | some row =>
      show ((row.map Cell.clearCell).get? x : Option Cell) =
        ((some row).bind (fun row => row.get? x)).map Cell.clearCell
      rw [get?_list_map]
      rfl
  · subst hyeq
    have key := clear_line_to_start_get_cell
      { b with screen := clearRowsAux b.screen 0 b.cursor_y } x hx
    rw [key]
    have hmid : ({ b with screen := clearRowsAux b.screen 0 b.cursor_y } :
        TerminalBuffer).get_cell x b.cursor_y = b.get_cell x b.cursor_y := by
      unfold get_cell
      show ((clearRowsAux b.screen 0 b.cursor_y).get? b.cursor_y).bind _ = _
      rw [get?_clearRowsAux, if_neg (by omega)]
    rw [hmid]

end TabSsh

namespace TabSsh

open TerminalBuffer

/-- C7 counterexample: with the pen background set to red, write 'a' then
`clear_line`. The cleared cell keeps its red background (space character and
default attributes only): `Cell::clear` does not reset `fg`/`bg`, so the
partial clear variants do not produce the default Cell as the claim states. -/
theorem C7_counterexample :
    (let b7 := ((TerminalBuffer.new 2 1 10).set_bg Color.RED).write_char 'a'
     b7.clear_line.get_cell 0 0 =
       some { character := ' ', fg := Color.WHITE, bg := Color.RED,
              attrs := CellAttributes.default } ∧
     ¬ b7.clear_line.get_cell 0 0 = some Cell.default ∧
     Cell.default.bg = Color.BLACK) := by
  decide

/-- C7 (amended): no clear variant moves the cursor. `clear()` resets every
cell to the full default Cell. The five partial variants
(`clear_to_end`, `clear_to_start`, `clear_line`, `clear_line_to_end`,
`clear_line_to_start`) set every cell in their range to the CLEARED cell:
space character and default attributes, but with the cell's existing fg/bg
colors preserved (`Cell::clear` does not touch colors). -/
theorem C7_clear_semantics (b : TerminalBuffer)
    (hlen : b.screen.length = b.size.rows) :
    (b.clear.cursor_position = b.cursor_position ∧
     b.clear_to_end.cursor_position = b.cursor_position ∧
     b.clear_to_start.cursor_position = b.cursor_position ∧
     b.clear_line.cursor_position = b.cursor_position ∧
     b.clear_line_to_end.cursor_position = b.cursor_position ∧
     b.clear_line_to_start.cursor_position = b.cursor_position) ∧
    (∀ x y, x < b.size.cols → y < b.size.rows →
      b.clear.get_cell x y = some Cell.default) ∧
    (∀ x, b.clear_line.get_cell x b.cursor_y =
      (b.get_cell x b.cursor_y).map Cell.clearCell) ∧
    (∀ x, b.cursor_x ≤ x → b.clear_line_to_end.get_cell x b.cursor_y =
      (b.get_cell x b.cursor_y).map Cell.clearCell) ∧
    (∀ x, x ≤ b.cursor_x → b.clear_line_to_start.get_cell x b.cursor_y =
      (b.get_cell x b.cursor_y).map Cell.clearCell) ∧
    (∀ x y, b.cursor_y < y ∨ (y = b.cursor_y ∧ b.cursor_x ≤ x) →
      b.clear_to_end.get_cell x y = (b.get_cell x y).map Cell.clearCell) ∧
    (∀ x y, y < b.cursor_y ∨ (y = b.cursor_y ∧ x ≤ b.cursor_x) →
      b.clear_to_start.get_cell x y = (b.get_cell x y).map Cell.clearCell) := by
  refine ⟨⟨clear_cursor b, clear_to_end_cursor b, clear_to_start_cursor b,
      clear_line_cursor b, clear_line_to_end_cursor b, clear_line_to_start_cursor b⟩,
    fun x y hx hy => clear_get_cell b x y hx hy,
    fun x => clear_line_get_cell b x,
    fun x hx => clear_line_to_end_get_cell b x hx,
    fun x hx => clear_line_to_start_get_cell b x hx,
    fun x y hy => clear_to_end_get_cell b hlen x y hy,
    fun x y hy => clear_to_start_get_cell b x y hy⟩

theorem C7_clear_semantics_witness :
    ((TerminalBuffer.new 2 2 10).clear.cursor_position =
        (TerminalBuffer.new 2 2 10).cursor_position ∧
      (TerminalBuffer.new 2 2 10).clear_to_end.cursor_position =
        (TerminalBuffer.new 2 2 10).cursor_position ∧
      (TerminalBuffer.new 2 2 10).clear_to_start.cursor_position =
        (TerminalBuffer.new 2 2 10).cursor_position ∧
      (TerminalBuffer.new 2 2 10).clear_line.cursor_position =
        (TerminalBuffer.new 2 2 10).cursor_position ∧
      (TerminalBuffer.new 2 2 10).clear_line_to_end.cursor_position =
        (TerminalBuffer.new 2 2 10).cursor_position ∧
      (TerminalBuffer.new 2 2 10).clear_line_to_start.cursor_position =
        (TerminalBuffer.new 2 2 10).cursor_position) ∧
    (∀ x y, x < (TerminalBuffer.new 2 2 10).size.cols →
      y < (TerminalBuffer.new 2 2 10).size.rows →
      (TerminalBuffer.new 2 2 10).clear.get_cell x y = some Cell.default) ∧
    (∀ x, (TerminalBuffer.new 2 2 10).clear_line.get_cell x
        (TerminalBuffer.new 2 2 10).cursor_y =
      ((TerminalBuffer.new 2 2 10).get_cell x
        (TerminalBuffer.new 2 2 10).cursor_y).map Cell.clearCell) ∧
    (∀ x, (TerminalBuffer.new 2 2 10).cursor_x ≤ x →
      (TerminalBuffer.new 2 2 10).clear_line_to_end.get_cell x
          (TerminalBuffer.new 2 2 10).cursor_y =
        ((TerminalBuffer.new 2 2 10).get_cell x
          (TerminalBuffer.new 2 2 10).cursor_y).map Cell.clearCell) ∧
    (∀ x, x ≤ (TerminalBuffer.new 2 2 10).cursor_x →
      (TerminalBuffer.new 2 2 10).clear_line_to_start.get_cell x
          (TerminalBuffer.new 2 2 10).cursor_y =
        ((TerminalBuffer.new 2 2 10).get_cell x
          (TerminalBuffer.new 2 2 10).cursor_y).map Cell.clearCell) ∧
    (∀ x y, (TerminalBuffer.new 2 2 10).cursor_y < y ∨
        (y = (TerminalBuffer.new 2 2 10).cursor_y ∧
          (TerminalBuffer.new 2 2 10).cursor_x ≤ x) →
      (TerminalBuffer.new 2 2 10).clear_to_end.get_cell x y =
        ((TerminalBuffer.new 2 2 10).get_cell x y).map Cell.clearCell) ∧
    (∀ x y, y < (TerminalBuffer.new 2 2 10).cursor_y ∨
        (y = (TerminalBuffer.new 2 2 10).cursor_y ∧
          x ≤ (TerminalBuffer.new 2 2 10).cursor_x) →
      (TerminalBuffer.new 2 2 10).clear_to_start.get_cell x y =
        ((TerminalBuffer.new 2 2 10).get_cell x y).map Cell.clearCell) :=
  C7_clear_semantics (TerminalBuffer.new 2 2 10) (by decide)

end TabSsh
